import Mathlib

/-!
# Verification of the pg_legacy_replication CDC core

A shallow embedding of `sources/pg_legacy_replication/helpers.py` and
`sources/pg_legacy_replication/schema_types.py`, together with proofs about
the embedded definitions.

Modelling conventions:
* Python `dict`s (ordered, unique keys) are association lists
  `List (String × α)`; `dictGet`/`dictSet` mirror `d.get(k)` / `d[k] = v`
  (assignment replaces in place, otherwise appends at the end).
* Python exceptions are values of `PyErr`; a function that can raise returns
  `Except PyErr α`.  The `MessageConsumer` methods mutate `self` in place, so
  they return the (possibly partially updated) state *and* an optional raised
  exception.
* Machine integers are `Nat`/`Int`; 64-bit wraparound inside BLAKE2b is an
  explicit `% 2 ^ 64`.
* External library calls that are not part of this repository
  (`pendulum`, the dlt `coerce_value`, `json.loads`) are represented by
  injective constructors of the value type `Val`.
-/

set_option maxRecDepth 10000

namespace PgRepl

/-! ## Python dictionary model -/

/-- The `d.get(k)`: first value bound to `k`, if any. -/
def dictGet {α : Type} : List (String × α) → String → Option α
  | [], _ => none
  | (k0, v) :: rest, k => if k0 = k then some v else dictGet rest k

/-- The `d[k] = v`: replace the binding of `k` in place, else append at the end
(Python dicts preserve insertion order). -/
def dictSet {α : Type} : List (String × α) → String → α → List (String × α)
  | [], k, v => [(k, v)]
  | (k0, v0) :: rest, k, v =>
    if k0 = k then (k0, v) :: rest else (k0, v0) :: dictSet rest k v

/-- The keys of a dictionary, in order. -/
def dictKeys {α : Type} (d : List (String × α)) : List String := d.map Prod.fst

/-! ## Data model: decoderbufs row messages (spec section 3) -/

/-- The `Op` enum of `pg_logicaldec_pb2`. -/
inductive Op where
  | UNKNOWN
  | BEGIN
  | COMMIT
  | INSERT
  | UPDATE
  | DELETE
deriving DecidableEq, Repr

/-- The tagged union of datum variants carried by a column
(spec section 3: "Column (datum)").  Floating-point payloads are carried as
their wire bit patterns; no code under verification computes with them. -/
inductive Datum where
  | null
  | int32 (v : Int)
  | int64 (v : Int)
  | floatBits (bits : Nat)
  | doubleBits (bits : Nat)
  | boolD (b : Bool)
  | stringD (s : String)
  | bytesD (bs : List Nat)
deriving DecidableEq, Repr

/-- The `DatumMessage`: one column of a decoded row. -/
structure DatumMessage where
  column_name : String
  column_type : Int
  atttypmod : Int
  part_of_pkey : Bool
  datum : Datum
deriving DecidableEq, Repr

/-- The `TypeInfo`: per-column type metadata of `new_tuple`. -/
structure TypeInfo where
  modifier : String
  value_optional : Bool
deriving DecidableEq, Repr

/-- A decoded `RowMessage` protobuf. -/
structure RowMessage where
  op : Op
  table : String
  commit_time : Nat
  new_tuple : List DatumMessage
  old_tuple : List DatumMessage
  new_typeinfo : List TypeInfo
deriving DecidableEq, Repr

/-- A psycopg2 `ReplicationMessage` whose payload has been decoded. -/
structure ReplicationMessage where
  row : RowMessage
  data_start : Nat
deriving DecidableEq, Repr

/-- Python exceptions raised by the embedded code. -/
inductive PyErr where
  | stopReplication
  | assertionError (msg : String)
  | attributeError
  | keyError
  | indexError
  | valueError
deriving DecidableEq, Repr

/-! ## dlt data types and values -/

/-- The `TDataType`: the dlt column data types (spec section 3, "Column Schema"). -/
inductive TDataType where
  | bigint
  | binary
  | bool
  | complex
  | date
  | decimal
  | double
  | text
  | time
  | timestamp
  | wei
deriving DecidableEq, Repr

/-- Python values appearing in emitted data items.  `datetime` embeds
`pendulum` datetimes by their epoch-microsecond argument, `coerced` embeds the
result of the dlt external `coerce_value`, and `jsonVal` the result of
`json.loads`; all three external functions live outside this repository and
are represented injectively. -/
inductive Val where
  | vnone
  | int (n : Int)
  | str (s : String)
  | boolV (b : Bool)
  | bytes (bs : List Nat)
  | decimalV (n : Int)
  | pyFloat (bits : Nat)
  | intList (ns : List Int)
  | datetime (micros : Nat)
  | jsonVal (raw : String)
  | coerced (dt : TDataType) (raw : String)
deriving DecidableEq, Repr

/-- Modelled from the spec: `_epoch_micros_to_datetime` (imported by
`helpers.py` but absent from the sources provided) converts an epoch count of
microseconds to a `pendulum.DateTime`; the conversion is injective and is
embedded as the `Val.datetime` constructor. -/
def epochMicrosToDatetime (micros : Nat) : Val := Val.datetime micros

/-- A data item: Python dict from column name to value. -/
abbrev DataItem := List (String × Val)

/-! ## BLAKE2b-64 (hashlib.blake2b with digest_size=8)

`hash_typeinfo` in `helpers.py` hashes `repr(tuple_of_typeinfo).encode()` with
BLAKE2b and an 8-byte digest, then parses the hex digest as an integer.  The
full BLAKE2b compression function (RFC 7693) is embedded below over `Nat`
with explicit `% 2 ^ 64` wraparound. -/

/-- The constant `2 ^ 64`. -/
def M64 : Nat := 18446744073709551616

/-- Addition modulo `2 ^ 64`. -/
def add64 (a b : Nat) : Nat := (a + b) % M64

/-- Bitwise xor (stays below `2 ^ 64` for arguments below `2 ^ 64`). -/
def xor64 (a b : Nat) : Nat := Nat.xor a b

/-- Right rotation of a 64-bit word. -/
def rotr64 (x : Nat) (r : Nat) : Nat :=
  Nat.lor (x >>> r) ((x <<< (64 - r)) % M64)

/-- The BLAKE2b initialisation vector. -/
def blakeIV : List Nat :=
  [0x6a09e667f3bcc908, 0xbb67ae8584caa73b, 0x3c6ef372fe94f82b,
   0xa54ff53a5f1d36f1, 0x510e527fade682d1, 0x9b05688c2b3e6c1f,
   0x1f83d9abfb41bd6b, 0x5be0cd19137e2179]

/-- The BLAKE2 message schedule permutations. -/
def blakeSigma : List (List Nat) :=
  [[0, 1, 2, 3, 4, 5, 6, 7, 8, 9, 10, 11, 12, 13, 14, 15],
   [14, 10, 4, 8, 9, 15, 13, 6, 1, 12, 0, 2, 11, 7, 5, 3],
   [11, 8, 12, 0, 5, 2, 15, 13, 10, 14, 3, 6, 7, 1, 9, 4],
   [7, 9, 3, 1, 13, 12, 11, 14, 2, 6, 5, 10, 4, 0, 15, 8],
   [9, 0, 5, 7, 2, 4, 10, 15, 14, 1, 11, 12, 6, 8, 3, 13],
   [2, 12, 6, 10, 0, 11, 8, 3, 4, 13, 7, 5, 15, 14, 1, 9],
   [12, 5, 1, 15, 14, 13, 4, 10, 0, 7, 6, 3, 9, 2, 8, 11],
   [13, 11, 7, 14, 12, 1, 3, 9, 5, 0, 15, 4, 8, 6, 2, 10],
   [6, 15, 14, 9, 11, 3, 0, 8, 12, 2, 13, 7, 1, 4, 10, 5],
   [10, 2, 8, 4, 7, 6, 1, 5, 15, 11, 9, 14, 3, 12, 13, 0]]

/-- Element of the working vector (out-of-range reads return 0; all accesses
are in range). -/
def vget (v : List Nat) (i : Nat) : Nat := v.getD i 0

/-- The BLAKE2b mixing function G. -/
def blakeG (v : List Nat) (a b c d : Nat) (x y : Nat) : List Nat :=
  let va := add64 (add64 (vget v a) (vget v b)) x
  let vd := rotr64 (xor64 (vget v d) va) 32
  let vc := add64 (vget v c) vd
  let vb := rotr64 (xor64 (vget v b) vc) 24
  let va2 := add64 (add64 va vb) y
  let vd2 := rotr64 (xor64 vd va2) 16
  let vc2 := add64 vc vd2
  let vb2 := rotr64 (xor64 vb vc2) 63
  ((((v.set a va2).set b vb2).set c vc2).set d vd2)

/-- One BLAKE2b round on working vector `v` with message words `m`. -/
def blakeRound (m : List Nat) (v : List Nat) (r : Nat) : List Nat :=
  let s := blakeSigma.getD (r % 10) []
  let mi (i : Nat) : Nat := m.getD (s.getD i 0) 0
  let v1 := blakeG v 0 4 8 12 (mi 0) (mi 1)
  let v2 := blakeG v1 1 5 9 13 (mi 2) (mi 3)
  let v3 := blakeG v2 2 6 10 14 (mi 4) (mi 5)
  let v4 := blakeG v3 3 7 11 15 (mi 6) (mi 7)
  let v5 := blakeG v4 0 5 10 15 (mi 8) (mi 9)
  let v6 := blakeG v5 1 6 11 12 (mi 10) (mi 11)
  let v7 := blakeG v6 2 7 8 13 (mi 12) (mi 13)
  blakeG v7 3 4 9 14 (mi 14) (mi 15)

/-- A little-endian 64-bit word from up to 8 bytes. -/
def leWord (bs : List Nat) : Nat := bs.foldr (fun b acc => acc * 256 + b) 0

/-- The 16 little-endian message words of a 128-byte block. -/
def bytesToWords (block : List Nat) : List Nat :=
  (List.range 16).map (fun i => leWord ((block.drop (8 * i)).take 8))

/-- The BLAKE2b compression function F. -/
def blakeCompress (h : List Nat) (m : List Nat) (t : Nat) (last : Bool) :
    List Nat :=
  let v0 := h ++ blakeIV
  let v1 := v0.set 12 (xor64 (vget v0 12) (t % M64))
  let v2 := v1.set 13 (xor64 (vget v1 13) (t / M64))
  let v3 := if last then v2.set 14 (xor64 (vget v2 14) (M64 - 1)) else v2
  let vf := (List.range 12).foldl (blakeRound m) v3
  (List.range 8).map (fun i => xor64 (vget h i) (xor64 (vget vf i) (vget vf (i + 8))))

/-- Zero-pad a final block to 128 bytes. -/
def padTo128 (bs : List Nat) : List Nat := bs ++ List.replicate (128 - bs.length) 0

/-- Process the message blocks; `done` counts the bytes already compressed.
Structural recursion on a fuel bound (always sufficient, see `blakeBlocks`)
keeps the definition kernel-reducible. -/
def blakeBlocksGo : Nat → List Nat → List Nat → Nat → List Nat
  | 0, h, _, _ => h
  | fuel + 1, h, bs, done =>
    if bs.length ≤ 128 then
      blakeCompress h (bytesToWords (padTo128 bs)) (done + bs.length) true
    else
      blakeBlocksGo fuel
        (blakeCompress h (bytesToWords (bs.take 128)) (done + 128) false)
        (bs.drop 128) (done + 128)

/-- Process all message blocks of `bs` starting from state `h`. -/
def blakeBlocks (h : List Nat) (bs : List Nat) (done : Nat) : List Nat :=
  blakeBlocksGo (bs.length + 1) h bs done

/-- The first digest word read back as `int(hexdigest(), 16)` does: the
8 little-endian digest bytes interpreted as a big-endian integer. -/
def hexdigestInt (w : Nat) : Nat :=
  (List.range 8).foldl (fun acc i => acc * 256 + (w / 256 ^ i % 256)) 0

/-- The `hashlib.blake2b(msg, digest_size=8)` followed by `int(hexdigest(), 16)`:
keyless BLAKE2b with an 8-byte digest over the byte list `msg`. -/
def blake2b64 (msg : List Nat) : Nat :=
  let h0 := xor64 0x6a09e667f3bcc908 0x01010008 :: blakeIV.drop 1
  hexdigestInt (vget (blakeBlocks h0 msg 0) 0)

/-! ## Python repr of the typeinfo tuple -/

/-- ASCII bytes of a string. -/
def strBytes (s : String) : List Nat := s.data.map Char.toNat

/-- Bytes of Python `repr` of a quote-free string: the contents between two
apostrophes (byte 39). -/
def pyReprStrBytes (s : String) : List Nat := 39 :: strBytes s ++ [39]

/-- Bytes of Python `repr` of a bool. -/
def pyReprBoolBytes (b : Bool) : List Nat :=
  strBytes (if b then "True" else "False")

/-- Bytes of Python `repr` of one `(modifier, value_optional)` pair. -/
def pyReprPairBytes (ti : TypeInfo) : List Nat :=
  40 :: pyReprStrBytes ti.modifier ++ [44, 32] ++ pyReprBoolBytes ti.value_optional ++ [41]

/-- Interleave `", "` (bytes 44 32) between encoded elements. -/
def joinCommaSpace : List (List Nat) → List Nat
  | [] => []
  | [e] => e
  | e :: rest => e ++ [44, 32] ++ joinCommaSpace rest

/-- Bytes of Python `repr` of a tuple of already-encoded elements:
`()` when empty, `(e,)` for one element, `(e1, e2, ...)` otherwise. -/
def pyReprTupleBytes (elems : List (List Nat)) : List Nat :=
  match elems with
  | [] => [40, 41]
  | [e] => 40 :: e ++ [44, 41]
  | es => 40 :: joinCommaSpace es ++ [41]

/-- The `hash_typeinfo` of `helpers.py`: BLAKE2b-64 of the `repr` of the tuple
`tuple((info.modifier, info.value_optional) for info in new_typeinfo)`. -/
def hash_typeinfo (new_typeinfo : List TypeInfo) : Nat :=
  blake2b64 (pyReprTupleBytes (new_typeinfo.map pyReprPairBytes))

/-! ## schema_types.py -/

/-- The `_DUMMY_VALS`: dummy values used to replace NULLs in NOT NULL columns in
key-only delete records.  The dictionary covers every `TDataType`, so the
lookup `_DUMMY_VALS[data_type]` is total. -/
def _DUMMY_VALS : TDataType → Val
  | .bigint => .int 0
  | .binary => .bytes [32]
  | .bool => .boolV true
  | .complex => .intList [0]
  | .date => .str "2000-01-01"
  | .decimal => .decimalV 0
  | .double => .pyFloat 0
  | .text => .str ""
  | .time => .str "00:00:00"
  | .timestamp => .str "2000-01-01T00:00:00"
  | .wei => .int 0

/-- The `_PG_TYPES`: postgres type OID to type string. -/
def _PG_TYPES (type_id : Int) : Option String :=
  if type_id = 16 then some "boolean"
  else if type_id = 17 then some "bytea"
  else if type_id = 20 then some "bigint"
  else if type_id = 21 then some "smallint"
  else if type_id = 23 then some "integer"
  else if type_id = 701 then some "double precision"
  else if type_id = 1043 then some "character varying"
  else if type_id = 1082 then some "date"
  else if type_id = 1083 then some "time without time zone"
  else if type_id = 1184 then some "timestamp with time zone"
  else if type_id = 1700 then some "numeric"
  else if type_id = 3802 then some "jsonb"
  else none

/-- Python `x & 0xFFFF` on a (possibly negative) int: under
two-complement arithmetic, AND with a low-bit mask equals the mathematical remainder
`x mod 2 ^ 16` (always non-negative, as in Python). -/
def pyAnd16 (x : Int) : Int := Int.emod x 65536

/-- The `_get_precision` of `schema_types.py`.  `>>>` on `Int` is an arithmetic
shift, matching Python `>>`. -/
def _get_precision (type_id : Int) (atttypmod : Int) : Option Int :=
  if type_id = 21 then some 16
  else if type_id = 23 then some 32
  else if type_id = 20 then some 64
  else if atttypmod ≠ -1 then
    if type_id = 1700 then some (pyAnd16 ((atttypmod - 4) >>> 16))
    else if type_id = 1083 ∨ type_id = 1184 then some atttypmod
    else if type_id = 1043 then some (atttypmod - 4)
    else none
  else none

/-- The `_get_scale` of `schema_types.py`. -/
def _get_scale (type_id : Int) (atttypmod : Int) : Option Int :=
  if atttypmod ≠ -1 then
    if type_id = 21 ∨ type_id = 23 ∨ type_id = 20 then some 0
    else if type_id = 1700 then some (pyAnd16 (atttypmod - 4))
    else none
  else none

/-- A dlt column type descriptor, as returned by the type mapper. -/
structure ColumnType where
  data_type : TDataType
  precision : Option Int := none
  scale : Option Int := none
deriving DecidableEq, Repr

/-- Modelled from the spec: `PostgresTypeMapper.from_db_type` lives in the
external dlt library.  Spec section 4.1 gives its contract: known type
strings map to the dlt data types listed there (smallint/integer/bigint all
map to `bigint`, distinguished by precision), unknown or missing types
default to `text`; precision and scale are passed through. -/
def from_db_type (pg_type : Option String) (precision scale : Option Int) :
    ColumnType :=
  let dt : TDataType :=
    match pg_type with
    | some "boolean" => .bool
    | some "bytea" => .binary
    | some "bigint" => .bigint
    | some "smallint" => .bigint
    | some "integer" => .bigint
    | some "double precision" => .double
    | some "character varying" => .text
    | some "date" => .date
    | some "time without time zone" => .time
    | some "timestamp with time zone" => .timestamp
    | some "numeric" => .decimal
    | some "jsonb" => .complex
    | _ => .text
  { data_type := dt, precision := precision, scale := scale }

/-- The `_to_dlt_column_type` of `schema_types.py`. -/
def _to_dlt_column_type (type_id : Int) (atttypmod : Int) : ColumnType :=
  from_db_type (_PG_TYPES type_id) (_get_precision type_id atttypmod)
    (_get_scale type_id atttypmod)

/-- Strip every occurrence of the two-character sequence `\x` (Python
`val.replace("\\x", "")`). -/
def stripBackslashX : List Char → List Char
  | c1 :: c2 :: rest =>
    if c1 = '\\' ∧ c2 = 'x' then stripBackslashX rest
    else c1 :: stripBackslashX (c2 :: rest)
  | l => l

/-- The value of a hex digit character, if it is one. -/
def hexDigitVal (c : Char) : Option Nat :=
  if 48 ≤ c.toNat ∧ c.toNat ≤ 57 then some (c.toNat - 48)
  else if 65 ≤ c.toNat ∧ c.toNat ≤ 70 then some (c.toNat - 55)
  else if 97 ≤ c.toNat ∧ c.toNat ≤ 102 then some (c.toNat - 87)
  else none

/-- The `bytes.fromhex`: pairs of hex digits, spaces between bytes skipped,
anything else raises `ValueError`. -/
def bytesFromHexChars : List Char → Except PyErr (List Nat)
  | [] => .ok []
  | c :: rest =>
    if c = ' ' then bytesFromHexChars rest
    else
      match rest with
      | [] => .error .valueError
      | c2 :: rest2 =>
        match hexDigitVal c, hexDigitVal c2 with
        | some hi, some lo =>
          (bytesFromHexChars rest2).map (fun bs => (16 * hi + lo) :: bs)
        | _, _ => .error .valueError

/-- The `_to_dlt_val` of `schema_types.py`: converts the pgoutput text-formatted
value into a dlt-compatible data value.  `byte1` is the nullness marker; the
external `json.loads` and dlt `coerce_value` calls are embedded injectively
as `Val.jsonVal` and `Val.coerced`. -/
def _to_dlt_val (val : String) (data_type : TDataType) (byte1 : String)
    (for_delete : Bool) : Except PyErr Val :=
  if byte1 = "n" then
    if for_delete then .ok (_DUMMY_VALS data_type) else .ok .vnone
  else if byte1 = "t" then
    if data_type = .binary then
      (bytesFromHexChars (stripBackslashX val.data)).map Val.bytes
    else if data_type = .complex then .ok (.jsonVal val)
    else .ok (.coerced data_type val)
  else .error .valueError

/-- Modelled from the spec: the datum-based value decoder invoked by
`gen_data_item` (`helpers.py` line 594 calls `_to_dlt_val(data, data_type,
for_delete=...)` on a `DatumMessage`, a variant of the decoder that is not
among the provided sources).  Per spec section 4.2: a null datum yields the
type-specific dummy value when `for_delete` is set and null otherwise;
non-null scalar variants decode to the corresponding value (the textual /
JSON coercion of string payloads is embedded injectively). -/
def datumToDltVal (d : Datum) (data_type : TDataType) (for_delete : Bool) :
    Val :=
  match d with
  | .null => if for_delete then _DUMMY_VALS data_type else .vnone
  | .int32 v => .int v
  | .int64 v => .int v
  | .floatBits b => .pyFloat b
  | .doubleBits b => .pyFloat b
  | .boolD b => .boolV b
  | .stringD s => if data_type = .complex then .jsonVal s else .coerced data_type s
  | .bytesD bs => .bytes bs

/-- A `TColumnSchema` TypedDict.  An `Option` field models a present or
absent dictionary key; `extra_fields` lists the names of any further keys a
schema might carry (always empty for schemas built by this code). -/
structure ColumnSchema where
  name : Option String := none
  data_type : Option TDataType := none
  nullable : Option Bool := none
  precision : Option Int := none
  scale : Option Int := none
  primary_key : Option Bool := none
  extra_fields : List String := []
deriving DecidableEq, Repr

/-- Modelled from the spec: the two-argument `_to_dlt_column_schema` used by
`infer_table_schema` (`helpers.py` line 556) is not among the provided
sources.  Per spec section 4.3: the column type is derived from the datum
OID and `atttypmod` via the Type Mapper, `primary_key` is set from
`part_of_pkey`, and `nullable` is set from `value_optional` when a
`TypeInfo` is supplied. -/
def _to_dlt_column_schema (col : DatumMessage) (type_info : Option TypeInfo) :
    ColumnSchema :=
  let ct := _to_dlt_column_type col.column_type col.atttypmod
  { name := some col.column_name
    data_type := some ct.data_type
    precision := ct.precision
    scale := ct.scale
    primary_key := some col.part_of_pkey
    nullable := type_info.map (fun ti => ti.value_optional) }

/-! ## Schemas -/

/-- A dlt table schema: name plus the ordered column dictionary. -/
structure TableSchema where
  name : String
  columns : List (String × ColumnSchema)
deriving DecidableEq, Repr

/-- Python `str.split` with a one-character separator (kernel-reducible,
unlike `String.splitOn`). -/
def splitOnChar (sep : Char) : List Char → List (List Char)
  | [] => [[]]
  | c :: rest =>
    match splitOnChar sep rest with
    | [] => [[]]
    | g :: gs => if c = sep then [] :: g :: gs else (c :: g) :: gs

/-- The `s.split(sep)` for a single-character separator. -/
def pySplit (s : String) (sep : Char) : List String :=
  (splitOnChar sep s.data).map (fun cs => String.mk cs)

/-- The filter `not included_columns or col.column_name in included_columns`
of `infer_table_schema` (an absent or empty allow-list keeps everything).
`gen_data_item` `if included_columns and col_name not in included_columns:
continue` skips exactly the columns this predicate rejects. -/
def keepColumn (included_columns : Option (List String)) (name : String) :
    Bool :=
  match included_columns with
  | none => true
  | some l => l.isEmpty || l.contains name

/-- The `lsn` replication column appended by `infer_table_schema`. -/
def lsnReplColumn : ColumnSchema :=
  { data_type := some .bigint, name := some "lsn", nullable := some true }

/-- The `deleted_ts` replication column appended by `infer_table_schema`. -/
def deletedTsReplColumn : ColumnSchema :=
  { data_type := some .timestamp, name := some "deleted_ts", nullable := some true }

/-- The dict comprehension of `infer_table_schema`: iterate the source tuple
with its index, keep the columns passing the allow-list filter, and map each
through `_to_dlt_column_schema` with `new_typeinfo[i]` when the operation is
a change (`IndexError` when the typeinfo list is too short). -/
def inferColumnsGo (is_change : Bool) (tinfos : List TypeInfo)
    (included_columns : Option (List String)) :
    List DatumMessage → Nat → List (String × ColumnSchema) →
    Except PyErr (List (String × ColumnSchema))
  | [], _, acc => .ok acc
  | col :: rest, i, acc =>
    if keepColumn included_columns col.column_name then
      if is_change then
        match tinfos.get? i with
        | none => .error .indexError
        | some ti =>
          inferColumnsGo is_change tinfos included_columns rest (i + 1)
            (dictSet acc col.column_name (_to_dlt_column_schema col (some ti)))
      else
        inferColumnsGo is_change tinfos included_columns rest (i + 1)
          (dictSet acc col.column_name (_to_dlt_column_schema col none))
    else inferColumnsGo is_change tinfos included_columns rest (i + 1) acc

/-- The `infer_table_schema` of `helpers.py`: infer the table schema from the
replication message and optional allow-list. -/
def infer_table_schema (msg : RowMessage)
    (included_columns : Option (List String) := none) :
    Except PyErr TableSchema :=
  let is_change := msg.op ≠ .DELETE
  let tuples := if is_change then msg.new_tuple else msg.old_tuple
  match inferColumnsGo is_change msg.new_typeinfo included_columns tuples 0 [] with
  | .error e => .error e
  | .ok columns =>
    let columns := dictSet columns "lsn" lsnReplColumn
    let columns := dictSet columns "deleted_ts" deletedTsReplColumn
    match (pySplit msg.table (Char.ofNat 46)).get? 1 with
    | none => .error .indexError
    | some tn => .ok { name := tn, columns := columns }

/-- The loop body of `gen_data_item`: decode each kept column of the row into
the item dictionary (`KeyError` when the column or its `data_type` is missing
from the cached column schema). -/
def genDataItemGo (is_delete : Bool) (column_schema : List (String × ColumnSchema))
    (included_columns : Option (List String)) :
    List DatumMessage → DataItem → Except PyErr DataItem
  | [], acc => .ok acc
  | d :: rest, acc =>
    if keepColumn included_columns d.column_name then
      match (dictGet column_schema d.column_name).bind
          (fun cs => cs.data_type) with
      | none => .error .keyError
      | some dt =>
        genDataItemGo is_delete column_schema included_columns rest
          (dictSet acc d.column_name (datumToDltVal d.datum dt is_delete))
    else genDataItemGo is_delete column_schema included_columns rest acc

/-- The `gen_data_item` of `helpers.py`: generate a data item from a row message
and its column schemas.  DELETE rows read `old_tuple` and first record
`deleted_ts` from the `commit_time` field of the message itself. -/
def gen_data_item (msg : RowMessage)
    (column_schema : List (String × ColumnSchema))
    (included_columns : Option (List String) := none) :
    Except PyErr DataItem :=
  let is_delete := msg.op = .DELETE
  let row := if is_delete then msg.old_tuple else msg.new_tuple
  let init : DataItem :=
    if is_delete then [("deleted_ts", epochMicrosToDatetime msg.commit_time)]
    else []
  genDataItemGo is_delete column_schema included_columns row init

/-- The `ALLOWED_COL_SCHEMA_FIELDS` of `helpers.py`. -/
def ALLOWED_COL_SCHEMA_FIELDS : List String :=
  ["name", "data_type", "nullable", "precision", "scale"]

/-- The set of dictionary keys present in a column schema (a `ColumnSchema`
represents the `TColumnSchema` TypedDict: an `Option` field is a present or
absent key; `extra_fields` lists any further keys). -/
def presentKeys (cs : ColumnSchema) : List String :=
  (if cs.name.isSome then ["name"] else []) ++
  (if cs.data_type.isSome then ["data_type"] else []) ++
  (if cs.nullable.isSome then ["nullable"] else []) ++
  (if cs.precision.isSome then ["precision"] else []) ++
  (if cs.scale.isSome then ["scale"] else []) ++
  (if cs.primary_key.isSome then ["primary_key"] else []) ++
  cs.extra_fields

/-- The `set(s2.keys()) - ALLOWED_COL_SCHEMA_FIELDS` of `compare_schemas`. -/
def extraFieldsOf (cs : ColumnSchema) : List String :=
  (presentKeys cs).filter (fun k => ¬ ALLOWED_COL_SCHEMA_FIELDS.contains k)

/-- The `s1.get(f, s2.get(f))`. -/
def mergeField {α : Type} (a b : Option α) : Option α :=
  match a with
  | some x => some x
  | none => b

/-- The per-column loop of `compare_schemas`, building the merged column
dictionary in iteration order of `last["columns"]`. -/
def compareColumnsGo (cols2 : List (String × ColumnSchema)) :
    List (String × ColumnSchema) → List (String × ColumnSchema) →
    Except PyErr (List (String × ColumnSchema))
  | [], acc => .ok acc
  | (name, s1) :: rest, acc =>
    match dictGet cols2 name with
    | none => .error (.assertionError ("Incompatible schema for column " ++ name))
    | some s2 =>
      match s1.data_type with
      | none => .error .keyError
      | some dt1 =>
        match s2.data_type with
        | none => .error .keyError
        | some dt2 =>
          if dt1 = dt2 then
            if extraFieldsOf s2 = [] then
              let col : ColumnSchema :=
                { name := some name
                  data_type := some dt1
                  nullable := mergeField s1.nullable s2.nullable
                  precision := mergeField s1.precision s2.precision
                  scale := mergeField s1.scale s2.scale }
              compareColumnsGo cols2 rest (dictSet acc name col)
            else .error (.assertionError ("Unexpected fields in column " ++ name))
          else .error (.assertionError ("Incompatible schema for column " ++ name))

/-- The `compare_schemas` of `helpers.py`: compare the last schema with the new
one, merging field by field, or raise `AssertionError` on an incompatible
change.  Only `AssertionError`s are converted to `StopReplication` by the
caller; the `KeyError` of a missing `data_type` propagates as fatal. -/
def compare_schemas (last new : TableSchema) : Except PyErr TableSchema :=
  if last.name = new.name then
    (compareColumnsGo new.columns last.columns []).map
      (fun cols => { name := last.name, columns := cols })
  else .error (.assertionError "Table names do not match")

/-! ## MessageConsumer

The consumer mutates `self` in place and signals batch termination by
raising `StopReplication`.  Every method is embedded as a function returning
the (partially) updated state together with the raised exception, if any:
mutations made before a raise are visible to the caller, exactly as in
Python. -/

/-- The `SqlTableOptions` restricted to `included_columns`, the only key the
`MessageConsumer` reads. -/
structure SqlTableOptions where
  included_columns : Option (List String) := none
deriving DecidableEq, Repr

/-- The state of a `MessageConsumer`. -/
structure ConsumerState where
  upto_lsn : Nat
  table_qnames : List String
  target_batch_size : Nat
  included_columns : List (String × List String)
  consumed_all : Bool
  data_items : List (String × List DataItem)
  last_table_schema : List (String × TableSchema)
  last_table_hashes : List (String × Nat)
  last_commit_ts : Option Val
  last_commit_lsn : Option Nat
deriving DecidableEq, Repr

/-- The `MessageConsumer.__init__`: `included_columns` keeps only the tables
whose options carry a truthy (non-empty) `included_columns` sequence;
`last_commit_ts` and `last_commit_lsn` are declared but not assigned
(reading them before a BEGIN / COMMIT raises `AttributeError`). -/
def consumerInit (upto_lsn : Nat) (table_qnames : List String)
    (target_batch_size : Nat)
    (table_options : List (String × SqlTableOptions)) : ConsumerState :=
  { upto_lsn := upto_lsn
    table_qnames := table_qnames
    target_batch_size := target_batch_size
    included_columns := table_options.filterMap (fun p =>
      match p.2.included_columns with
      | some cols => if cols.isEmpty then none else some (p.1, cols)
      | none => none)
    consumed_all := false
    data_items := []
    last_table_schema := []
    last_table_hashes := []
    last_commit_ts := none
    last_commit_lsn := none }

/-- The `sum([len(items) for items in self.data_items.values()])`. -/
def totalBufferedRows (s : ConsumerState) : Nat :=
  (s.data_items.map (fun p => p.2.length)).sum

/-- The `MessageConsumer.process_commit`: record the commit LSN, mark the batch
consumed when `upto_lsn` is reached, and raise `StopReplication` when the
batch is complete or full. -/
def process_commit (s : ConsumerState) (lsn : Nat) :
    ConsumerState × Option PyErr :=
  let s1 := { s with last_commit_lsn := some lsn }
  let s2 := if s1.upto_lsn ≤ lsn then { s1 with consumed_all := true } else s1
  let n_items := totalBufferedRows s2
  if s2.consumed_all ∨ s2.target_batch_size ≤ n_items then
    (s2, some .stopReplication)
  else (s2, none)

/-- A default (never inspected) schema used to destructure a guarded
`Option`. -/
def emptyTableSchema : TableSchema := { name := "", columns := [] }

/-- The `defaultdict(list)` append: `self.data_items[table_name].append(item)`. -/
def appendDataItem : List (String × List DataItem) → String → DataItem →
    List (String × List DataItem)
  | [], t, it => [(t, [it])]
  | (t0, its) :: rest, t, it =>
    if t0 = t then (t0, its ++ [it]) :: rest
    else (t0, its) :: appendDataItem rest t it

/-- The `MessageConsumer.get_table_schema`: return the cached schema for DELETEs
and on a typeinfo-hash match; otherwise infer a schema, cache it when the
table is new, or reconcile it against the cached one — converting an
`AssertionError` of `compare_schemas` into `StopReplication`.  Returns the
updated state and the schema (the *inferred* one on the reconciliation
path, exactly as the source does). -/
def get_table_schema (s : ConsumerState) (msg : RowMessage)
    (table_name : String) : ConsumerState × Except PyErr TableSchema :=
  let last_schema := dictGet s.last_table_schema table_name
  let included_columns := dictGet s.included_columns table_name
  if msg.op = .DELETE ∧ last_schema.isSome then
    (s, .ok (last_schema.getD emptyTableSchema))
  else
    let current_hash := hash_typeinfo msg.new_typeinfo
    if dictGet s.last_table_hashes table_name = some current_hash then
      match dictGet s.last_table_schema table_name with
      | some sch => (s, .ok sch)
      | none => (s, .error .keyError)
    else
      match infer_table_schema msg included_columns with
      | .error e => (s, .error e)
      | .ok new_schema =>
        match last_schema with
        | none =>
          ({ s with
              last_table_schema := dictSet s.last_table_schema table_name new_schema
              last_table_hashes := dictSet s.last_table_hashes table_name current_hash },
            .ok new_schema)
        | some last =>
          match compare_schemas last new_schema with
          | .ok retained =>
            ({ s with
                last_table_schema := dictSet s.last_table_schema table_name retained },
              .ok new_schema)
          | .error (.assertionError _) => (s, .error .stopReplication)
          | .error e => (s, .error e)

/-- The `MessageConsumer.process_change`: drop messages for tables outside
`table_qnames`; otherwise resolve the schema, decode the row, set its `lsn`
and append it to the table buffer. -/
def process_change (s : ConsumerState) (msg : RowMessage) (lsn : Nat) :
    ConsumerState × Option PyErr :=
  if msg.table ∈ s.table_qnames then
    match (pySplit msg.table (Char.ofNat 46)).get? 1 with
    | none => (s, some .indexError)
    | some table_name =>
      match get_table_schema s msg table_name with
      | (s1, .error e) => (s1, some e)
      | (s1, .ok table_schema) =>
        match gen_data_item msg table_schema.columns
            (dictGet s1.included_columns table_name) with
        | .error e => (s1, some e)
        | .ok data_item =>
          let data_item := dictSet data_item "lsn" (.int (Int.ofNat lsn))
          ({ s1 with data_items := appendDataItem s1.data_items table_name data_item },
            none)
  else (s, none)

/-- The `MessageConsumer.process_msg` on an already-decoded payload: UNKNOWN
operations fail the assertion, BEGIN records the commit timestamp, COMMIT
runs `process_commit`, and change operations run `process_change`. -/
def process_msg (s : ConsumerState) (row_msg : RowMessage) (data_start : Nat) :
    ConsumerState × Option PyErr :=
  if row_msg.op = .UNKNOWN then
    (s, some (.assertionError "Unsupported operation"))
  else if row_msg.op = .BEGIN then
    ({ s with last_commit_ts := some (epochMicrosToDatetime row_msg.commit_time) },
      none)
  else if row_msg.op = .COMMIT then process_commit s data_start
  else process_change s row_msg data_start

/-- The `cur.consume_stream(consumer)` over a finite message stream: feed each
message to the consumer until the stream ends or an exception is raised. -/
def runConsumer (s : ConsumerState) :
    List ReplicationMessage → ConsumerState × Option PyErr
  | [] => (s, none)
  | m :: rest =>
    match process_msg s m.row m.data_start with
    | (s1, none) => runConsumer s1 rest
    | (s1, some e) => (s1, some e)

/-! ## ItemGenerator -/

/-- A `(table, schema, items)` group yielded by the generator. -/
structure TableItems where
  table : String
  schema : Option TableSchema
  items : List DataItem
deriving DecidableEq, Repr

/-- The observable outcome of one `ItemGenerator.__iter__` execution:
what was yielded, which acknowledgements were sent, whether the connection
was closed, the updated generator fields, and the exception that escaped,
if any. -/
structure GenResult where
  yielded : List TableItems
  writeAck : Option Nat
  flushAck : Option Nat
  closed : Bool
  lastCommitLsn : Option Nat
  generatedAll : Bool
  err : Option PyErr
deriving DecidableEq, Repr

/-- The `ItemGenerator.__iter__` over a finite message stream: run the consumer,
treat `StopReplication` as normal termination, then execute the `finally`
block.  Its first statement reads `consumer.last_commit_lsn`; when no COMMIT
was ever processed that attribute is unset, so an `AttributeError` is raised
*before* any acknowledgement, yield or connection close.  Otherwise the
block acks `write_lsn`, yields the buffered groups, updates the generator
fields, acks `flush_lsn` and closes the connection (any fatal stream error
then propagates). -/
def itemGeneratorIter (upto_lsn : Nat) (table_qnames : List String)
    (target_batch_size : Nat)
    (table_options : List (String × SqlTableOptions))
    (msgs : List ReplicationMessage) : GenResult :=
  let consumer := consumerInit upto_lsn table_qnames target_batch_size table_options
  let run := runConsumer consumer msgs
  let s := run.1
  let streamErr : Option PyErr :=
    match run.2 with
    | some .stopReplication => none
    | e => e
  match s.last_commit_lsn with
  | none =>
    { yielded := []
      writeAck := none
      flushAck := none
      closed := false
      lastCommitLsn := none
      generatedAll := false
      err := some .attributeError }
  | some lcl =>
    { yielded := s.data_items.map (fun p =>
        { table := p.1, schema := dictGet s.last_table_schema p.1, items := p.2 })
      writeAck := some lcl
      flushAck := some lcl
      closed := true
      lastCommitLsn := some lcl
      generatedAll := s.consumed_all
      err := streamErr }

/-! ## LSN textual form -/

/-- The uppercase hex digit of a value below 16. -/
def hexDigitUpper (n : Nat) : Char :=
  if n < 10 then Char.ofNat (48 + n) else Char.ofNat (55 + n)

/-- The uppercase hex digits of `n`, most significant first, on a fuel bound
(structural recursion keeps the definition kernel-reducible). -/
def hexCharsUpperGo : Nat → Nat → List Char
  | 0, _ => []
  | fuel + 1, n =>
    if n < 16 then [hexDigitUpper n]
    else hexCharsUpperGo fuel (n / 16) ++ [hexDigitUpper (n % 16)]

/-- The uppercase hex digits of `n`, most significant first (`"0"` for 0),
as Python `f"{n:X}"` produces.  The fuel `n + 1` always suffices. -/
def hexCharsUpper (n : Nat) : List Char := hexCharsUpperGo (n + 1) n

/-- Python `f"{n:X}"`. -/
def pyFormatX (n : Nat) : String := String.mk (hexCharsUpper n)

/-- Python `f"{n:08X}"`: zero-pad the hex digits to width 8. -/
def pyFormat08X (n : Nat) : String :=
  let ds := hexCharsUpper n
  String.mk (List.replicate (8 - ds.length) (Char.ofNat 48) ++ ds)

/-- The `lsn_int_to_hex` of `helpers.py`:
`f"{lsn >> 32 & 4294967295:X}/{lsn & 4294967295:08X}"`. -/
def lsn_int_to_hex (lsn : Nat) : String :=
  pyFormatX ((lsn >>> 32) &&& 4294967295) ++ "/" ++
    pyFormat08X (lsn &&& 4294967295)

/-- Fold hex digits into a number (`int(s, 16)` for strings of hex digits). -/
def parseHexFold (cs : List Char) : Nat :=
  cs.foldl (fun acc c => acc * 16 + (hexDigitVal c).getD 0) 0

/-- Is `c` an uppercase hex digit (`[0-9A-F]`)? -/
def isHexUpperChar (c : Char) : Bool :=
  (48 ≤ c.toNat ∧ c.toNat ≤ 57) ∨ (65 ≤ c.toNat ∧ c.toNat ≤ 70)

/-- Does `s` match `/^[0-9A-F]+\/[0-9A-F]{8}$/` — exactly one slash, a
non-empty uppercase-hex head and an 8-digit uppercase-hex tail? -/
def lsnHexFormat (s : String) : Bool :=
  match splitOnChar (Char.ofNat 47) s.data with
  | [h, l] => !h.isEmpty && h.all isHexUpperChar && (l.length == 8) && l.all isHexUpperChar
  | _ => false

/-- The `int(H, 16) * 2 ^ 32 + int(LL, 16)` over the two slash-separated halves,
the parse direction the claim states for the textual LSN form. -/
def parseLsnHex (s : String) : Option Nat :=
  match splitOnChar (Char.ofNat 47) s.data with
  | [h, l] => some (parseHexFold h * 4294967296 + parseHexFold l)
  | _ => none

/-- The most recently buffered item for a table. -/
def lastItemOf (s : ConsumerState) (t : String) : Option DataItem :=
  (dictGet s.data_items t).bind (fun l => l.getLast?)

/-! ## Dictionary lemmas -/

theorem dictGet_dictSet_self {α : Type} (d : List (String × α)) (k : String)
    (v : α) : dictGet (dictSet d k v) k = some v := by
  induction d with
  | nil => simp [dictSet, dictGet]
  | cons p rest ih =>
    by_cases h : p.1 = k <;> simp [dictSet, dictGet, h, ih]

theorem dictGet_dictSet_ne {α : Type} (d : List (String × α)) (k k' : String)
    (v : α) (hne : k ≠ k') : dictGet (dictSet d k v) k' = dictGet d k' := by
  induction d with
  | nil => simp [dictSet, dictGet, hne]
  | cons p rest ih =>
    by_cases h : p.1 = k <;> by_cases h' : p.1 = k' <;>
      simp_all [dictSet, dictGet]

theorem dictSet_append {α : Type} (d : List (String × α)) (k : String) (v : α)
    (hk : k ∉ dictKeys d) : dictSet d k v = d ++ [(k, v)] := by
  induction d with
  | nil => simp [dictSet]
  | cons p rest ih =>
    simp only [dictKeys, List.map_cons, List.mem_cons] at hk
    push_neg at hk
    simp [dictSet, Ne.symm hk.1, ih (by simpa [dictKeys] using hk.2)]

theorem dictGet_mem {α : Type} {d : List (String × α)} {k : String} {v : α}
    (h : dictGet d k = some v) : (k, v) ∈ d := by
  induction d with
  | nil => simp [dictGet] at h
  | cons p rest ih =>
    obtain ⟨a, b⟩ := p
    by_cases hk : a = k
    · subst hk
      simp only [dictGet, if_pos rfl] at h
      injection h with h
      subst h
      exact List.mem_cons_self _ _
    · simp only [dictGet, if_neg hk] at h
      exact List.mem_cons_of_mem _ (ih h)

theorem dictGet_isSome_dictSet {α : Type} (d : List (String × α))
    (k k' : String) (v : α) (h : dictGet d k ≠ none) :
    dictGet (dictSet d k' v) k ≠ none := by
  by_cases hk : k' = k
  · subst hk
    simp [dictGet_dictSet_self]
  · rw [dictGet_dictSet_ne d k' k v hk]
    exact h

theorem dictGet_appendDataItem (d : List (String × List DataItem))
    (t : String) (it : DataItem) :
    dictGet (appendDataItem d t it) t = some ((dictGet d t).getD [] ++ [it]) := by
  induction d with
  | nil => simp [appendDataItem, dictGet]
  | cons p rest ih =>
    by_cases h : p.1 = t <;> simp [appendDataItem, dictGet, h, ih]

/-! ## Claim C5: null-datum decoding -/

/-- Claim C5 (confirmed): for every target data type, decoding a null datum
(`byte1 = "n"`) with `for_delete = true` returns the type-specific dummy
sentinel — bigint 0, text `""`, bool `True`, binary a single space byte,
decimal 0, date `"2000-01-01"`, time `"00:00:00"`, timestamp
`"2000-01-01T00:00:00"` — and decoding a null datum with
`for_delete = false` returns `None`. -/
theorem null_datum_decoding (data_type : TDataType) (val : String) :
    _to_dlt_val val data_type "n" true = .ok (_DUMMY_VALS data_type) ∧
    _to_dlt_val val data_type "n" false = .ok .vnone ∧
    _DUMMY_VALS .bigint = .int 0 ∧
    _DUMMY_VALS .text = .str "" ∧
    _DUMMY_VALS .bool = .boolV true ∧
    _DUMMY_VALS .binary = .bytes [32] ∧
    _DUMMY_VALS .decimal = .decimalV 0 ∧
    _DUMMY_VALS .date = .str "2000-01-01" ∧
    _DUMMY_VALS .time = .str "00:00:00" ∧
    _DUMMY_VALS .timestamp = .str "2000-01-01T00:00:00" :=
  ⟨rfl, rfl, rfl, rfl, rfl, rfl, rfl, rfl, rfl, rfl⟩

/-! ## Claim C7: scale rules of the type mapper -/

/-- Claim C7 (amended): for every `atttypmod ≠ -1` the scale of the integer
types (OIDs 21, 23, 20) is 0 and the scale of numeric (OID 1700) is
`(atttypmod - 4) & 0xFFFF`; for `atttypmod = -1` — the usual value for
integer columns — no scale is returned at all. -/
theorem get_scale_rules (m : Int) (hm : m ≠ -1) :
    _get_scale 21 m = some 0 ∧ _get_scale 23 m = some 0 ∧
    _get_scale 20 m = some 0 ∧
    _get_scale 1700 m = some (pyAnd16 (m - 4)) ∧
    ∀ t : Int, _get_scale t (-1) = none := by
  refine ⟨?_, ?_, ?_, ?_, ?_⟩ <;> simp [_get_scale, hm]

/-- Witness for `get_scale_rules` at the `atttypmod` of `NUMERIC(4, 2)`. -/
theorem get_scale_rules_witness :
    (262150 : Int) ≠ -1 ∧
    (_get_scale 21 262150 = some 0 ∧ _get_scale 23 262150 = some 0 ∧
      _get_scale 20 262150 = some 0 ∧
      _get_scale 1700 262150 = some (pyAnd16 (262150 - 4)) ∧
      ∀ t : Int, _get_scale t (-1) = none) :=
  ⟨by decide, get_scale_rules 262150 (by decide)⟩

/-- Counterexample to claim C7 as stated: for the integer types the scale is
*not* 0 for every `atttypmod` — at `atttypmod = -1` (the value integer
columns actually carry) `_get_scale` returns no scale at all. -/
theorem get_scale_minus_one_no_scale :
    _get_scale 21 (-1) = none ∧ _get_scale 23 (-1) = none ∧
    _get_scale 20 (-1) = none ∧ _get_scale 21 (-1) ≠ some 0 := by
  refine ⟨?_, ?_, ?_, ?_⟩ <;> simp [_get_scale]

/-! ## Claim C8 lemmas: hex formatting -/

theorem hexDigitVal_hexDigitUpper :
    ∀ d < 16, hexDigitVal (hexDigitUpper d) = some d := by decide

theorem isHexUpperChar_hexDigitUpper :
    ∀ d < 16, isHexUpperChar (hexDigitUpper d) = true := by decide

theorem parseHexFold_hexCharsUpperGo (fuel : Nat) :
    ∀ n < fuel, parseHexFold (hexCharsUpperGo fuel n) = n := by
  induction fuel with
  | zero => omega
  | succ fuel ih =>
    intro n hn
    by_cases h16 : n < 16
    · simp [hexCharsUpperGo, if_pos h16, parseHexFold,
        hexDigitVal_hexDigitUpper n h16]
    · have hpos : 0 < n := by omega
      have hdiv : n / 16 < fuel := by
        have := Nat.div_lt_self hpos (by omega : 1 < 16)
        omega
      have hmod : n % 16 < 16 := Nat.mod_lt n (by omega)
      simp only [hexCharsUpperGo, if_neg h16]
      unfold parseHexFold
      rw [List.foldl_append]
      have ihd := ih (n / 16) hdiv
      unfold parseHexFold at ihd
      rw [ihd]
      simp [hexDigitVal_hexDigitUpper (n % 16) hmod]
      omega

theorem parseHexFold_hexCharsUpper (n : Nat) :
    parseHexFold (hexCharsUpper n) = n :=
  parseHexFold_hexCharsUpperGo (n + 1) n (by omega)

theorem hexCharsUpperGo_all_hex (fuel : Nat) :
    ∀ n < fuel, (hexCharsUpperGo fuel n).all isHexUpperChar = true := by
  induction fuel with
  | zero => omega
  | succ fuel ih =>
    intro n hn
    by_cases h16 : n < 16
    · simp [hexCharsUpperGo, if_pos h16, isHexUpperChar_hexDigitUpper n h16]
    · have hpos : 0 < n := by omega
      have hdiv : n / 16 < fuel := by
        have := Nat.div_lt_self hpos (by omega : 1 < 16)
        omega
      have hmod : n % 16 < 16 := Nat.mod_lt n (by omega)
      simp only [hexCharsUpperGo, if_neg h16, List.all_append]
      simp [ih (n / 16) hdiv, isHexUpperChar_hexDigitUpper (n % 16) hmod]

theorem hexCharsUpper_all_hex (n : Nat) :
    (hexCharsUpper n).all isHexUpperChar = true :=
  hexCharsUpperGo_all_hex (n + 1) n (by omega)

theorem hexCharsUpperGo_ne_nil (fuel : Nat) :
    ∀ n < fuel, hexCharsUpperGo fuel n ≠ [] := by
  intro n hn
  cases fuel with
  | zero => omega
  | succ fuel =>
    by_cases h16 : n < 16 <;> simp [hexCharsUpperGo, h16]

theorem hexCharsUpper_ne_nil (n : Nat) : hexCharsUpper n ≠ [] :=
  hexCharsUpperGo_ne_nil (n + 1) n (by omega)

theorem hexCharsUpperGo_length_le (fuel : Nat) :
    ∀ n < fuel, ∀ k, 1 ≤ k → n < 16 ^ k →
      (hexCharsUpperGo fuel n).length ≤ k := by
  induction fuel with
  | zero => omega
  | succ fuel ih =>
    intro n hn k hk hnk
    by_cases h16 : n < 16
    · simp [hexCharsUpperGo, if_pos h16]
      omega
    · have hpos : 0 < n := by omega
      have hdiv : n / 16 < fuel := by
        have := Nat.div_lt_self hpos (by omega : 1 < 16)
        omega
      have hk2 : 2 ≤ k := by
        rcases Nat.lt_or_ge k 2 with hlt | hge
        · have hk1 : k = 1 := by omega
          rw [hk1] at hnk
          simp at hnk
          omega
        · exact hge
      have hdivk : n / 16 < 16 ^ (k - 1) := by
        rw [Nat.div_lt_iff_lt_mul (by omega : 0 < 16)]
        have : 16 ^ (k - 1) * 16 = 16 ^ k := by
          rw [← Nat.pow_succ]
          congr 1
          omega
        omega
      have := ih (n / 16) hdiv (k - 1) (by omega) hdivk
      simp only [hexCharsUpperGo, if_neg h16, List.length_append,
        List.length_singleton]
      omega

theorem hexCharsUpper_length_le (n k : Nat) (hk : 1 ≤ k) (h : n < 16 ^ k) :
    (hexCharsUpper n).length ≤ k :=
  hexCharsUpperGo_length_le (n + 1) n (by omega) k hk h

theorem parseHexFold_replicate_zero (m : Nat) (cs : List Char) :
    parseHexFold (List.replicate m (Char.ofNat 48) ++ cs) = parseHexFold cs := by
  induction m with
  | zero => simp
  | succ m ih =>
    rw [List.replicate_succ, List.cons_append]
    unfold parseHexFold
    rw [List.foldl_cons]
    have h48 : (hexDigitVal (Char.ofNat 48)).getD 0 = 0 := by decide
    rw [h48]
    unfold parseHexFold at ih
    simpa using ih

theorem isHexUpperChar_ne_slash (c : Char) (h : isHexUpperChar c = true) :
    c ≠ Char.ofNat 47 := by
  intro heq
  rw [heq] at h
  exact absurd h (by decide)

theorem splitOnChar_ne_nil (sep : Char) (cs : List Char) :
    splitOnChar sep cs ≠ [] := by
  cases cs with
  | nil => simp [splitOnChar]
  | cons c rest =>
    simp only [splitOnChar]
    split
    · simp
    · split <;> simp

theorem splitOnChar_no_sep (sep : Char) (cs : List Char)
    (h : ∀ c ∈ cs, c ≠ sep) : splitOnChar sep cs = [cs] := by
  induction cs with
  | nil => rfl
  | cons c rest ih =>
    have hrest : splitOnChar sep rest = [rest] :=
      ih (fun x hx => h x (List.mem_cons_of_mem _ hx))
    have hc : c ≠ sep := h c (List.mem_cons_self _ _)
    simp [splitOnChar, hrest, hc]

theorem splitOnChar_mid (sep : Char) (as bs : List Char)
    (ha : ∀ c ∈ as, c ≠ sep) :
    splitOnChar sep (as ++ sep :: bs) = as :: splitOnChar sep bs := by
  induction as with
  | nil =>
    simp only [List.nil_append, splitOnChar]
    obtain ⟨g, gs, hg⟩ := List.exists_cons_of_ne_nil (splitOnChar_ne_nil sep bs)
    rw [hg]
    simp [hg]
  | cons a rest ih =>
    have hrest := ih (fun x hx => ha x (List.mem_cons_of_mem _ hx))
    have hane : a ≠ sep := ha a (List.mem_cons_self _ _)
    simp only [List.cons_append, splitOnChar, List.append_eq]
    rw [hrest]
    simp [hane]

/-! ## Claim C8: LSN textual round-trip -/

/-- Claim C8 (confirmed): for every 64-bit non-negative `n`,
`lsn_int_to_hex n` has the form `H/LL` with `H` a non-empty uppercase-hex
string and `LL` exactly 8 uppercase-hex digits (matching
`/^[0-9A-F]+\/[0-9A-F]{8}$/`), parsing the two halves back as
`int(H, 16) * 2 ^ 32 + int(LL, 16)` recovers `n`, and `lsn_int_to_hex 1`
is `"0/00000001"`. -/
theorem lsn_hex_roundtrip (n : Nat) (h64 : n < 18446744073709551616) :
    lsnHexFormat (lsn_int_to_hex n) = true ∧
    parseLsnHex (lsn_int_to_hex n) = some n ∧
    lsn_int_to_hex 1 = "0/00000001" := by
  have hm32 : (4294967295 : Nat) = 2 ^ 32 - 1 := by norm_num
  have hmaskL : n &&& 4294967295 = n % 4294967296 := by
    rw [hm32, Nat.and_pow_two_sub_one_eq_mod]
  have hdivlt : n / 4294967296 < 4294967296 := by
    rw [Nat.div_lt_iff_lt_mul (by norm_num : 0 < 4294967296)]
    omega
  have hmaskH : (n >>> 32) &&& 4294967295 = n / 4294967296 := by
    rw [Nat.shiftRight_eq_div_pow, hm32, Nat.and_pow_two_sub_one_eq_mod]
    norm_num
    omega
  have hmodlt : n % 4294967296 < 4294967296 := Nat.mod_lt n (by norm_num)
  -- the character-level shape of the produced string
  have hdata : (lsn_int_to_hex n).data =
      hexCharsUpper (n / 4294967296) ++ Char.ofNat 47 ::
        (List.replicate (8 - (hexCharsUpper (n % 4294967296)).length)
            (Char.ofNat 48) ++ hexCharsUpper (n % 4294967296)) := by
    show (pyFormatX ((n >>> 32) &&& 4294967295) ++ "/" ++
        pyFormat08X (n &&& 4294967295)).data = _
    rw [String.data_append, String.data_append, hmaskH, hmaskL]
    simp [pyFormatX, pyFormat08X]
  have hH_all := hexCharsUpper_all_hex (n / 4294967296)
  have hH_nosep : ∀ c ∈ hexCharsUpper (n / 4294967296), c ≠ Char.ofNat 47 := by
    intro c hc
    exact isHexUpperChar_ne_slash c (by
      rw [List.all_eq_true] at hH_all
      exact hH_all c hc)
  have hL_all : (List.replicate (8 - (hexCharsUpper (n % 4294967296)).length)
      (Char.ofNat 48) ++ hexCharsUpper (n % 4294967296)).all isHexUpperChar
      = true := by
    rw [List.all_append]
    have hrep : (List.replicate (8 - (hexCharsUpper (n % 4294967296)).length)
        (Char.ofNat 48)).all isHexUpperChar = true := by
      rw [List.all_eq_true]
      intro c hc
      rw [List.eq_of_mem_replicate hc]
      decide
    rw [hrep, hexCharsUpper_all_hex]
    rfl
  have hL_nosep : ∀ c ∈ (List.replicate
      (8 - (hexCharsUpper (n % 4294967296)).length) (Char.ofNat 48) ++
        hexCharsUpper (n % 4294967296)), c ≠ Char.ofNat 47 := by
    intro c hc
    refine isHexUpperChar_ne_slash c ?_
    rw [List.all_eq_true] at hL_all
    exact hL_all c hc
  have hsplit : splitOnChar (Char.ofNat 47) (lsn_int_to_hex n).data =
      [hexCharsUpper (n / 4294967296),
        List.replicate (8 - (hexCharsUpper (n % 4294967296)).length)
          (Char.ofNat 48) ++ hexCharsUpper (n % 4294967296)] := by
    rw [hdata, splitOnChar_mid _ _ _ hH_nosep, splitOnChar_no_sep _ _ hL_nosep]
  have hlenle : (hexCharsUpper (n % 4294967296)).length ≤ 8 := by
    refine hexCharsUpper_length_le _ 8 (by omega) ?_
    norm_num
    omega
  refine ⟨?_, ?_, by decide⟩
  · unfold lsnHexFormat
    rw [hsplit]
    have hempty : (hexCharsUpper (n / 4294967296)).isEmpty = false := by
      simp [List.isEmpty_eq_false, hexCharsUpper_ne_nil]
    have h8 : 8 - (hexCharsUpper (n % 4294967296)).length +
        (hexCharsUpper (n % 4294967296)).length = 8 := by omega
    simp [hempty, hH_all, hL_all, h8]
  · unfold parseLsnHex
    rw [hsplit]
    simp only [parseHexFold_hexCharsUpper, parseHexFold_replicate_zero,
      Option.some.injEq]
    omega

/-- Witness for `lsn_hex_roundtrip` at the spec example
`0x16B375E0CA0`. -/
theorem lsn_hex_roundtrip_witness :
    (0x16B375E0CA0 : Nat) < 18446744073709551616 ∧
    (lsnHexFormat (lsn_int_to_hex 0x16B375E0CA0) = true ∧
      parseLsnHex (lsn_int_to_hex 0x16B375E0CA0) = some 0x16B375E0CA0 ∧
      lsn_int_to_hex 1 = "0/00000001") :=
  ⟨by decide, lsn_hex_roundtrip 0x16B375E0CA0 (by decide)⟩

/-! ## Claim C4: schema reconciliation merge -/

/-- The merged column the claim describes: `data_type` from `last`, each of
`nullable`, `precision`, `scale` from `last` when present, else from `new`
(stated from the spec words, to be compared with `compare_schemas`). -/
def claimMergedColumn (name : String) (s1 s2 : ColumnSchema) : ColumnSchema :=
  { name := some name
    data_type := s1.data_type
    nullable := mergeField s1.nullable s2.nullable
    precision := mergeField s1.precision s2.precision
    scale := mergeField s1.scale s2.scale }

theorem dictKeys_dictSet_append {α : Type} (d : List (String × α)) (k : String)
    (v : α) (hk : k ∉ dictKeys d) :
    dictKeys (dictSet d k v) = dictKeys d ++ [k] := by
  rw [dictSet_append d k v hk]
  simp [dictKeys]

theorem compareColumnsGo_ok (cols2 : List (String × ColumnSchema))
    (l : List (String × ColumnSchema)) :
    ∀ acc : List (String × ColumnSchema),
      (dictKeys l).Nodup →
      (∀ p ∈ l, p.1 ∉ dictKeys acc) →
      (∀ p ∈ l, ∃ s2 dt, dictGet cols2 p.1 = some s2 ∧
        p.2.data_type = some dt ∧ s2.data_type = some dt ∧
        extraFieldsOf s2 = []) →
      compareColumnsGo cols2 l acc =
        .ok (acc ++ l.map (fun p =>
          (p.1, claimMergedColumn p.1 p.2 ((dictGet cols2 p.1).getD {})))) := by
  induction l with
  | nil =>
    intro acc _ _ _
    simp [compareColumnsGo]
  | cons p rest ih =>
    intro acc hnodup hdisj hcols
    obtain ⟨name, s1⟩ := p
    obtain ⟨s2, dt, hget, hdt1, hdt2, hextra⟩ :=
      hcols _ (List.mem_cons_self _ _)
    simp only [compareColumnsGo]
    rw [hget, hdt1]
    simp only [hdt2, hextra, eq_self_iff_true, if_true, reduceIte]
    have hname_nin : name ∉ dictKeys acc := hdisj _ (List.mem_cons_self _ _)
    have hnd : (name :: dictKeys rest).Nodup := by
      simpa [dictKeys] using hnodup
    have hnodup_rest : (dictKeys rest).Nodup := (List.nodup_cons.mp hnd).2
    have hname_rest : ∀ q ∈ rest, q.1 ≠ name := by
      intro q hq heq
      have hmem : name ∈ dictKeys rest := by
        rw [← heq]
        exact List.mem_map_of_mem Prod.fst hq
      exact (List.nodup_cons.mp hnd).1 hmem
    have hdisj' : ∀ q ∈ rest, q.1 ∉ dictKeys (dictSet acc name
        { name := some name, data_type := some dt
          nullable := mergeField s1.nullable s2.nullable
          precision := mergeField s1.precision s2.precision
          scale := mergeField s1.scale s2.scale }) := by
      intro q hq
      rw [dictKeys_dictSet_append acc name _ hname_nin]
      simp only [List.mem_append, List.mem_singleton]
      push_neg
      exact ⟨hdisj _ (List.mem_cons_of_mem _ hq), hname_rest q hq⟩
    have hcols' : ∀ q ∈ rest, ∃ s2 dt, dictGet cols2 q.1 = some s2 ∧
        q.2.data_type = some dt ∧ s2.data_type = some dt ∧
        extraFieldsOf s2 = [] :=
      fun q hq => hcols _ (List.mem_cons_of_mem _ hq)
    rw [ih _ hnodup_rest hdisj' hcols']
    rw [dictSet_append acc name _ hname_nin]
    have hcol : claimMergedColumn name s1 ((dictGet cols2 name).getD {}) =
        { name := some name, data_type := some dt
          nullable := mergeField s1.nullable s2.nullable
          precision := mergeField s1.precision s2.precision
          scale := mergeField s1.scale s2.scale } := by
      have hdt1s : s1.data_type = some dt := hdt1
      simp [claimMergedColumn, hget, hdt1s]
    simp [hcol]

set_option maxHeartbeats 1000000 in
/-- Claim C4 (confirmed): for table schemas `last` and `new` with equal
names, where every column of `last` exists in `new` with the same
`data_type` and the columns of `new` carry no fields outside
`{name, data_type, nullable, precision, scale}`, `compare_schemas` returns a
schema containing exactly the columns of `last` (in order), each with
`data_type` taken from `last` and each of `nullable`, `precision`, `scale`
from `last` when present, else from `new`. -/
theorem compare_schemas_merges (last new : TableSchema)
    (hname : last.name = new.name)
    (hnodup : (dictKeys last.columns).Nodup)
    (hcols : ∀ p ∈ last.columns, ∃ s2 dt, dictGet new.columns p.1 = some s2 ∧
      p.2.data_type = some dt ∧ s2.data_type = some dt)
    (hnew : ∀ q ∈ new.columns, extraFieldsOf q.2 = []) :
    compare_schemas last new = .ok
      { name := last.name
        columns := last.columns.map (fun p =>
          (p.1, claimMergedColumn p.1 p.2 ((dictGet new.columns p.1).getD {}))) } := by
  unfold compare_schemas
  rw [if_pos hname]
  have hcols' : ∀ p ∈ last.columns, ∃ s2 dt,
      dictGet new.columns p.1 = some s2 ∧ p.2.data_type = some dt ∧
      s2.data_type = some dt ∧ extraFieldsOf s2 = [] := by
    intro p hp
    obtain ⟨s2, dt, hget, hdt1, hdt2⟩ := hcols p hp
    exact ⟨s2, dt, hget, hdt1, hdt2, hnew _ (dictGet_mem hget)⟩
  have hempty : ∀ p ∈ last.columns,
      p.1 ∉ dictKeys ([] : List (String × ColumnSchema)) := by
    intro p _
    simp [dictKeys]
  rw [compareColumnsGo_ok new.columns last.columns [] hnodup hempty hcols']
  rfl

/-- Witness for `compare_schemas_merges`: a compatible evolution of a
one-column table where `new` supplies the missing `nullable` and `last`
precision wins. -/
theorem compare_schemas_merges_witness :
    compare_schemas
      { name := "t"
        columns := [("a", { name := some "a", data_type := some .bigint,
                            precision := some 64 })] }
      { name := "t"
        columns := [("a", { name := some "a", data_type := some .bigint,
                            nullable := some true, precision := some 32 })] }
      = .ok
      { name := "t"
        columns := [("a", { name := some "a", data_type := some .bigint,
                            nullable := some true, precision := some 64 })] } := by
  have h := compare_schemas_merges
    { name := "t"
      columns := [("a", { name := some "a", data_type := some .bigint,
                          precision := some 64 })] }
    { name := "t"
      columns := [("a", { name := some "a", data_type := some .bigint,
                          nullable := some true, precision := some 32 })] }
    rfl (by decide)
    (by
      intro p hp
      simp only [List.mem_singleton] at hp
      subst hp
      exact ⟨_, .bigint, rfl, rfl, rfl⟩)
    (by decide)
  simpa [claimMergedColumn, dictGet, mergeField] using h

/-! ## Claim C10: absent or empty allow-lists filter nothing -/

theorem keepColumn_of_empty (inc : Option (List String))
    (h : inc = none ∨ inc = some []) (name : String) :
    keepColumn inc name = true := by
  rcases h with h | h <;> subst h <;> rfl

theorem inferColumnsGo_empty_allowlist (is_change : Bool)
    (tinfos : List TypeInfo) (inc : Option (List String))
    (h : inc = none ∨ inc = some []) :
    ∀ (l : List DatumMessage) (i : Nat) (acc : List (String × ColumnSchema)),
      inferColumnsGo is_change tinfos inc l i acc =
        inferColumnsGo is_change tinfos none l i acc := by
  intro l
  induction l with
  | nil => intro i acc; rfl
  | cons c rest ih =>
    intro i acc
    simp only [inferColumnsGo, keepColumn_of_empty inc h,
      keepColumn_of_empty none (Or.inl rfl), if_true]
    split
    · split
      · rfl
      · exact ih _ _
    · exact ih _ _

theorem genDataItemGo_empty_allowlist (is_delete : Bool)
    (cs : List (String × ColumnSchema)) (inc : Option (List String))
    (h : inc = none ∨ inc = some []) :
    ∀ (l : List DatumMessage) (acc : DataItem),
      genDataItemGo is_delete cs inc l acc =
        genDataItemGo is_delete cs none l acc := by
  intro l
  induction l with
  | nil => intro acc; rfl
  | cons d rest ih =>
    intro acc
    simp only [genDataItemGo, keepColumn_of_empty inc h,
      keepColumn_of_empty none (Or.inl rfl), if_true]
    split
    · rfl
    · exact ih _

theorem genDataItemGo_preserves_some (is_delete : Bool)
    (cs : List (String × ColumnSchema)) (inc : Option (List String)) :
    ∀ (l : List DatumMessage) (acc item : DataItem) (k : String),
      genDataItemGo is_delete cs inc l acc = .ok item →
      dictGet acc k ≠ none → dictGet item k ≠ none := by
  intro l
  induction l with
  | nil =>
    intro acc item k h hk
    simp only [genDataItemGo, Except.ok.injEq] at h
    exact h ▸ hk
  | cons d rest ih =>
    intro acc item k h hk
    simp only [genDataItemGo] at h
    by_cases hkeep : keepColumn inc d.column_name
    · rw [if_pos hkeep] at h
      cases hdt : (dictGet cs d.column_name).bind (fun c => c.data_type) with
      | none => rw [hdt] at h; cases h
      | some dt =>
        rw [hdt] at h
        exact ih _ _ k h (dictGet_isSome_dictSet _ _ _ _ hk)
    · rw [if_neg hkeep] at h
      exact ih _ _ k h hk

theorem genDataItemGo_mem_key (is_delete : Bool)
    (cs : List (String × ColumnSchema)) (inc : Option (List String)) :
    ∀ (l : List DatumMessage) (acc item : DataItem),
      genDataItemGo is_delete cs inc l acc = .ok item →
      ∀ d ∈ l, keepColumn inc d.column_name = true →
        dictGet item d.column_name ≠ none := by
  intro l
  induction l with
  | nil =>
    intro acc item _ d hd
    cases hd
  | cons d0 rest ih =>
    intro acc item h d hd hkeep
    rcases List.mem_cons.mp hd with hd | hd
    · subst hd
      simp only [genDataItemGo, if_pos hkeep] at h
      cases hdt : (dictGet cs d.column_name).bind (fun c => c.data_type) with
      | none => rw [hdt] at h; cases h
      | some dt =>
        rw [hdt] at h
        refine genDataItemGo_preserves_some is_delete cs inc rest _ _ _ h ?_
        rw [dictGet_dictSet_self]
        simp
    · simp only [genDataItemGo] at h
      by_cases hk0 : keepColumn inc d0.column_name
      · rw [if_pos hk0] at h
        cases hdt : (dictGet cs d0.column_name).bind (fun c => c.data_type) with
        | none => rw [hdt] at h; cases h
        | some dt =>
          rw [hdt] at h
          exact ih _ _ h d hd hkeep
      · rw [if_neg hk0] at h
        exact ih _ _ h d hd hkeep

/-- Claim C10 (confirmed): when the per-table `included_columns` allow-list
is absent or empty, no column filtering occurs — `infer_table_schema` and
`gen_data_item` behave exactly as with no allow-list and include every
column of the source tuple, and `MessageConsumer.__init__` drops empty
allow-lists from its `included_columns` mapping (an empty sequence in
`table_options` therefore never excludes all columns). -/
theorem empty_allowlist_no_filtering (msg : RowMessage)
    (column_schema : List (String × ColumnSchema)) (inc : Option (List String))
    (hinc : inc = none ∨ inc = some [])
    (upto batch : Nat) (qnames : List String)
    (tos : List (String × SqlTableOptions))
    (htos : ∀ p ∈ tos, p.2.included_columns = none ∨
      p.2.included_columns = some []) :
    infer_table_schema msg inc = infer_table_schema msg none ∧
    gen_data_item msg column_schema inc = gen_data_item msg column_schema none ∧
    (consumerInit upto qnames batch tos).included_columns = [] ∧
    (∀ item, gen_data_item msg column_schema inc = .ok item →
      ∀ d ∈ (if msg.op = .DELETE then msg.old_tuple else msg.new_tuple),
        dictGet item d.column_name ≠ none) := by
  refine ⟨?_, ?_, ?_, ?_⟩
  · simp only [infer_table_schema]
    rw [inferColumnsGo_empty_allowlist _ _ inc hinc]
  · simp only [gen_data_item]
    rw [genDataItemGo_empty_allowlist _ _ inc hinc]
  · simp only [consumerInit]
    rw [List.filterMap_eq_nil_iff]
    intro p hp
    rcases htos p hp with h | h <;> simp [h]
  · intro item hitem d hd
    unfold gen_data_item at hitem
    refine genDataItemGo_mem_key _ _ inc _ _ _ hitem d ?_
      (keepColumn_of_empty inc hinc _)
    by_cases hdel : msg.op = .DELETE <;> (simp [hdel] at hd ⊢; exact hd)

/-- Witness for `empty_allowlist_no_filtering`: an explicitly empty
allow-list on a one-column INSERT filters nothing. -/
theorem empty_allowlist_no_filtering_witness :
    ((some [] : Option (List String)) = none ∨
      (some [] : Option (List String)) = some []) ∧
    (infer_table_schema
        { op := .INSERT, table := "public.t", commit_time := 0,
          new_tuple := [{ column_name := "a", column_type := 20,
                          atttypmod := -1, part_of_pkey := false,
                          datum := .int64 7 }],
          old_tuple := [], new_typeinfo := [{ modifier := "bigint",
                                              value_optional := true }] }
        (some []) =
      infer_table_schema
        { op := .INSERT, table := "public.t", commit_time := 0,
          new_tuple := [{ column_name := "a", column_type := 20,
                          atttypmod := -1, part_of_pkey := false,
                          datum := .int64 7 }],
          old_tuple := [], new_typeinfo := [{ modifier := "bigint",
                                              value_optional := true }] }
        none) := by
  have h := empty_allowlist_no_filtering
    { op := .INSERT, table := "public.t", commit_time := 0,
      new_tuple := [{ column_name := "a", column_type := 20,
                      atttypmod := -1, part_of_pkey := false,
                      datum := .int64 7 }],
      old_tuple := [], new_typeinfo := [{ modifier := "bigint",
                                          value_optional := true }] }
    [] (some []) (Or.inr rfl) 0 1000 [] [] (by intro p hp; cases hp)
  exact ⟨Or.inr rfl, h.1⟩

/-! ## Consumer state lemmas (shared by claims C1, C2, C3) -/

/-- The `get_table_schema` only ever touches the two schema caches. -/
theorem get_table_schema_state (s : ConsumerState) (msg : RowMessage)
    (tn : String) :
    ∃ lts lth, (get_table_schema s msg tn).1 =
      { s with last_table_schema := lts, last_table_hashes := lth } := by
  simp only [get_table_schema]
  repeat' split
  all_goals exact ⟨_, _, rfl⟩

/-- The `process_change` only ever touches the schema caches and the row
buffers. -/
theorem process_change_state (s : ConsumerState) (msg : RowMessage)
    (lsn : Nat) :
    ∃ lts lth di, (process_change s msg lsn).1 =
      { s with last_table_schema := lts, last_table_hashes := lth,
               data_items := di } := by
  unfold process_change
  split
  · split
    · exact ⟨_, _, _, rfl⟩
    · rename_i tn hsp
      split
      · rename_i s1 e hg
        obtain ⟨lts, lth, hgts⟩ := get_table_schema_state s msg tn
        rw [hg] at hgts
        exact ⟨lts, lth, s.data_items, hgts⟩
      · rename_i s1 ts hg
        obtain ⟨lts, lth, hgts⟩ := get_table_schema_state s msg tn
        rw [hg] at hgts
        split
        · exact ⟨lts, lth, s.data_items, hgts⟩
        · rename_i item hgen
          refine ⟨lts, lth, appendDataItem s1.data_items tn
            (dictSet item "lsn" (.int (Int.ofNat lsn))), ?_⟩
          rw [show (s1 : ConsumerState) = _ from hgts]
  · exact ⟨_, _, _, rfl⟩

theorem process_change_consumed_all (s : ConsumerState) (msg : RowMessage)
    (lsn : Nat) :
    ((process_change s msg lsn).1).consumed_all = s.consumed_all := by
  obtain ⟨lts, lth, di, h⟩ := process_change_state s msg lsn
  rw [h]

theorem process_change_last_commit_lsn (s : ConsumerState) (msg : RowMessage)
    (lsn : Nat) :
    ((process_change s msg lsn).1).last_commit_lsn = s.last_commit_lsn := by
  obtain ⟨lts, lth, di, h⟩ := process_change_state s msg lsn
  rw [h]

/-- The `process_commit` raises whenever it sets (or finds) `consumed_all`: a
raise-free commit leaves `consumed_all` false. -/
theorem process_commit_ok_consumed_all (s : ConsumerState) (lsn : Nat)
    (hok : (process_commit s lsn).2 = none) :
    ((process_commit s lsn).1).consumed_all = false := by
  simp only [process_commit] at hok ⊢
  by_cases hup : s.upto_lsn ≤ lsn
  · simp [hup] at hok
  · simp only [hup, if_false, reduceIte] at hok ⊢
    by_cases hcond : ({ s with last_commit_lsn := some lsn } :
        ConsumerState).consumed_all = true ∨
        ({ s with last_commit_lsn := some lsn } :
          ConsumerState).target_batch_size ≤
          totalBufferedRows { s with last_commit_lsn := some lsn }
    · rw [if_pos hcond] at hok
      simp at hok
    · rw [if_neg hcond] at hok ⊢
      push_neg at hcond
      simpa using hcond.1

/-- A step that raises nothing keeps `consumed_all` false. -/
theorem process_msg_ok_consumed_all (s : ConsumerState) (rm : RowMessage)
    (d : Nat) (hc : s.consumed_all = false)
    (hok : (process_msg s rm d).2 = none) :
    ((process_msg s rm d).1).consumed_all = false := by
  unfold process_msg at hok ⊢
  by_cases h1 : rm.op = .UNKNOWN
  · simp [h1] at hok
  · rw [if_neg h1] at hok ⊢
    by_cases h2 : rm.op = .BEGIN
    · simp [h2, hc]
    · rw [if_neg h2] at hok ⊢
      by_cases h3 : rm.op = .COMMIT
      · rw [if_pos h3] at hok ⊢
        exact process_commit_ok_consumed_all s d hok
      · rw [if_neg h3] at hok ⊢
        rw [process_change_consumed_all]
        exact hc

/-- Along a raise-free run the consumer never holds `consumed_all = true`:
any COMMIT that sets it raises `StopReplication` at once. -/
theorem runConsumer_consumed_all (msgs : List ReplicationMessage) :
    ∀ s : ConsumerState, s.consumed_all = false →
      (runConsumer s msgs).2 = none →
      ((runConsumer s msgs).1).consumed_all = false := by
  induction msgs with
  | nil => intro s hc _; exact hc
  | cons m rest ih =>
    intro s hc hok
    have hrc : runConsumer s (m :: rest) =
        (match process_msg s m.row m.data_start with
         | (s1, none) => runConsumer s1 rest
         | (s1, some e) => (s1, some e)) := rfl
    cases hpm : process_msg s m.row m.data_start with
    | mk s1 e =>
      cases e with
      | none =>
        have heq : runConsumer s (m :: rest) = runConsumer s1 rest := by
          rw [hrc, hpm]
        rw [heq] at hok ⊢
        refine ih s1 ?_ hok
        have h2 := process_msg_ok_consumed_all s m.row m.data_start hc
          (by rw [hpm])
        rwa [hpm] at h2
      | some e0 =>
        have heq : runConsumer s (m :: rest) = (s1, some e0) := by
          rw [hrc, hpm]
        rw [heq] at hok
        simp at hok

/-! ## Claim C1: when StopReplication is raised -/

/-- The only exception the inference loop raises is `IndexError`. -/
theorem inferColumnsGo_error (is_change : Bool) (tinfos : List TypeInfo)
    (inc : Option (List String)) :
    ∀ (l : List DatumMessage) (i : Nat) (acc : List (String × ColumnSchema))
      (e : PyErr), inferColumnsGo is_change tinfos inc l i acc = .error e →
      e = .indexError := by
  intro l
  induction l with
  | nil =>
    intro i acc e h
    simp [inferColumnsGo] at h
  | cons c rest ih =>
    intro i acc e h
    simp only [inferColumnsGo] at h
    split at h
    · split at h
      · split at h
        · injection h with h2
          exact h2.symm
        · exact ih _ _ _ h
      · exact ih _ _ _ h
    · exact ih _ _ _ h

/-- The only exception `infer_table_schema` raises is `IndexError` — in
particular never `StopReplication`. -/
theorem infer_table_schema_error (msg : RowMessage)
    (inc : Option (List String)) (e : PyErr)
    (h : infer_table_schema msg inc = .error e) : e = .indexError := by
  simp only [infer_table_schema] at h
  split at h
  · rename_i e0 hcols
    injection h with h2
    exact h2 ▸ inferColumnsGo_error _ _ _ _ _ _ _ hcols
  · split at h
    · injection h with h2
      exact h2.symm
    · cases h

/-- The only exceptions the column comparison loop raises are
`AssertionError`s and `KeyError`. -/
theorem compareColumnsGo_error (cols2 : List (String × ColumnSchema)) :
    ∀ (l acc : List (String × ColumnSchema)) (e : PyErr),
      compareColumnsGo cols2 l acc = .error e →
      (∃ m, e = .assertionError m) ∨ e = .keyError := by
  intro l
  induction l with
  | nil =>
    intro acc e h
    simp [compareColumnsGo] at h
  | cons p rest ih =>
    intro acc e h
    obtain ⟨name, s1⟩ := p
    simp only [compareColumnsGo] at h
    split at h
    · injection h with h2
      exact Or.inl ⟨_, h2.symm⟩
    · split at h
      · injection h with h2
        exact Or.inr h2.symm
      · split at h
        · injection h with h2
          exact Or.inr h2.symm
        · split at h
          · split at h
            · exact ih _ _ h
            · injection h with h2
              exact Or.inl ⟨_, h2.symm⟩
          · injection h with h2
            exact Or.inl ⟨_, h2.symm⟩

/-- The only exceptions `compare_schemas` raises are `AssertionError`s and
`KeyError` — in particular never `StopReplication`. -/
theorem compare_schemas_error (last new : TableSchema) (e : PyErr)
    (h : compare_schemas last new = .error e) :
    (∃ m, e = .assertionError m) ∨ e = .keyError := by
  unfold compare_schemas at h
  split at h
  · cases hc : compareColumnsGo new.columns last.columns [] with
    | error e0 =>
      rw [hc] at h
      simp only [Except.map] at h
      injection h with h2
      exact h2 ▸ compareColumnsGo_error _ _ _ _ hc
    | ok cols =>
      rw [hc] at h
      simp [Except.map] at h
  · injection h with h2
    exact Or.inl ⟨_, h2.symm⟩

/-- The only exception `gen_data_item` raises is `KeyError` — in particular
never `StopReplication`. -/
theorem genDataItemGo_error (is_delete : Bool)
    (cs : List (String × ColumnSchema)) (inc : Option (List String)) :
    ∀ (l : List DatumMessage) (acc : DataItem) (e : PyErr),
      genDataItemGo is_delete cs inc l acc = .error e → e = .keyError := by
  intro l
  induction l with
  | nil =>
    intro acc e h
    simp [genDataItemGo] at h
  | cons d rest ih =>
    intro acc e h
    simp only [genDataItemGo] at h
    split at h
    · split at h
      · injection h with h2
        exact h2.symm
      · exact ih _ _ h
    · exact ih _ _ h

/-- Wrapper of `genDataItemGo_error` for `gen_data_item`. -/
theorem gen_data_item_error (msg : RowMessage)
    (cs : List (String × ColumnSchema)) (inc : Option (List String))
    (e : PyErr) (h : gen_data_item msg cs inc = .error e) : e = .keyError := by
  simp only [gen_data_item] at h
  exact genDataItemGo_error _ _ _ _ _ _ h

/-- When `get_table_schema` raises `StopReplication`, a schema was cached
for the table, a new schema was successfully inferred, and
`compare_schemas` rejected the pair with an `AssertionError` — the
incompatible-schema-change path, the method's only source of
`StopReplication`. -/
theorem get_table_schema_stop (s : ConsumerState) (msg : RowMessage)
    (tn : String)
    (h : (get_table_schema s msg tn).2 = .error .stopReplication) :
    ∃ last new_schema emsg,
      dictGet s.last_table_schema tn = some last ∧
      infer_table_schema msg (dictGet s.included_columns tn) =
        .ok new_schema ∧
      compare_schemas last new_schema = .error (.assertionError emsg) := by
  simp only [get_table_schema] at h
  split at h
  · simp at h
  · split at h
    · split at h
      · simp at h
      · simp at h
    · split at h
      · rename_i e0 hinf
        simp only at h
        injection h with h2
        have hidx := infer_table_schema_error _ _ _ hinf
        rw [h2] at hidx
        cases hidx
      · rename_i new_schema hinf
        split at h
        · simp at h
        · rename_i last hlast
          split at h
          · simp at h
          · rename_i emsg hcmp
            exact ⟨last, new_schema, emsg, hlast, hinf, hcmp⟩
          · rename_i e0 hcmp
            simp only at h
            injection h with h2
            rcases compare_schemas_error _ _ _ hcmp with ⟨m, hm⟩ | hk
            · rw [h2] at hm
              cases hm
            · rw [h2] at hk
              cases hk

/-- When `process_change` raises `StopReplication`, the message's table is
in the allow-set and the stop came from the incompatible-schema-change
path: a cached schema, a successfully inferred new schema, and a
`compare_schemas` `AssertionError` (the row decoder can only raise
`KeyError`). -/
theorem process_change_stop (s : ConsumerState) (msg : RowMessage)
    (lsn : Nat)
    (h : (process_change s msg lsn).2 = some .stopReplication) :
    msg.table ∈ s.table_qnames ∧
    ∃ tn last new_schema emsg,
      (pySplit msg.table (Char.ofNat 46)).get? 1 = some tn ∧
      dictGet s.last_table_schema tn = some last ∧
      infer_table_schema msg (dictGet s.included_columns tn) =
        .ok new_schema ∧
      compare_schemas last new_schema = .error (.assertionError emsg) := by
  unfold process_change at h
  by_cases hmem : msg.table ∈ s.table_qnames
  · rw [if_pos hmem] at h
    refine ⟨hmem, ?_⟩
    split at h
    · simp at h
    · rename_i tn hsp
      split at h
      · rename_i s1 e hg
        simp only at h
        injection h with h2
        have hstop2 : (get_table_schema s msg tn).2 =
            .error .stopReplication := by
          rw [hg, h2]
        obtain ⟨last, new_schema, emsg, ha, hb, hc⟩ :=
          get_table_schema_stop s msg tn hstop2
        exact ⟨tn, last, new_schema, emsg, hsp, ha, hb, hc⟩
      · rename_i s1 ts hg
        split at h
        · rename_i e hgen
          simp only at h
          injection h with h2
          have hkey := gen_data_item_error _ _ _ _ hgen
          rw [h2] at hkey
          cases hkey
        · simp at h
  · rw [if_neg hmem] at h
    simp at h

/-- Claim C1 (amended): starting from a fresh consumer, `StopReplication` is
raised only immediately after processing a COMMIT message *or* immediately
after an INSERT/UPDATE/DELETE message whose newly inferred schema is
incompatible with the cached one (a cached schema exists, a new schema is
inferred, and `compare_schemas` rejects the pair with an `AssertionError`);
when it is raised on a COMMIT, the total number of buffered rows is at least
`target_batch_size` or `last_commit_lsn` (just set to the COMMIT
`data_start`) is at least `upto_lsn`. -/
theorem consumer_stop_only_after_commit_or_change (upto batch : Nat)
    (qnames : List String) (tos : List (String × SqlTableOptions))
    (pre : List ReplicationMessage) (m : ReplicationMessage)
    (hpre : (runConsumer (consumerInit upto qnames batch tos) pre).2 = none)
    (hstop : (process_msg (runConsumer (consumerInit upto qnames batch tos) pre).1
        m.row m.data_start).2 = some .stopReplication) :
    (m.row.op = .COMMIT ∧
      (let s2 := (process_msg
          (runConsumer (consumerInit upto qnames batch tos) pre).1
          m.row m.data_start).1
       s2.target_batch_size ≤ totalBufferedRows s2 ∨
         (s2.last_commit_lsn = some m.data_start ∧
           s2.upto_lsn ≤ m.data_start))) ∨
    ((m.row.op = .INSERT ∨ m.row.op = .UPDATE ∨ m.row.op = .DELETE) ∧
      (let s1 := (runConsumer (consumerInit upto qnames batch tos) pre).1
       m.row.table ∈ s1.table_qnames ∧
       ∃ tn last new_schema emsg,
         (pySplit m.row.table (Char.ofNat 46)).get? 1 = some tn ∧
         dictGet s1.last_table_schema tn = some last ∧
         infer_table_schema m.row (dictGet s1.included_columns tn) =
           .ok new_schema ∧
         compare_schemas last new_schema =
           .error (.assertionError emsg))) := by
  have hca : ((runConsumer (consumerInit upto qnames batch tos) pre).1).consumed_all
      = false :=
    runConsumer_consumed_all pre _ rfl hpre
  set s1 := (runConsumer (consumerInit upto qnames batch tos) pre).1 with hs1
  cases hop : m.row.op with
  | UNKNOWN => simp [process_msg, hop] at hstop
  | BEGIN => simp [process_msg, hop] at hstop
  | INSERT =>
    right
    refine ⟨Or.inl rfl, ?_⟩
    simp only [process_msg, hop, reduceCtorEq, if_false, reduceIte] at hstop
    exact process_change_stop s1 m.row m.data_start hstop
  | UPDATE =>
    right
    refine ⟨Or.inr (Or.inl rfl), ?_⟩
    simp only [process_msg, hop, reduceCtorEq, if_false, reduceIte] at hstop
    exact process_change_stop s1 m.row m.data_start hstop
  | DELETE =>
    right
    refine ⟨Or.inr (Or.inr rfl), ?_⟩
    simp only [process_msg, hop, reduceCtorEq, if_false, reduceIte] at hstop
    exact process_change_stop s1 m.row m.data_start hstop
  | COMMIT =>
    left
    refine ⟨rfl, ?_⟩
    simp only [process_msg, hop, reduceCtorEq, if_false, if_true, reduceIte]
    simp only [process_msg, hop, reduceCtorEq, if_false, if_true,
      reduceIte] at hstop
    unfold process_commit at hstop ⊢
    by_cases hup : s1.upto_lsn ≤ m.data_start
    · simp only [if_pos hup]
      split <;> right <;> exact ⟨rfl, hup⟩
    · simp only [if_pos hup, if_neg hup] at hstop ⊢
      split at hstop
      · rename_i hcond
        split
        · left
          rcases hcond with hcond | hcond
          · rw [hca] at hcond
            cases hcond
          · exact hcond
        · simp_all
      · simp at hstop

/-- First message of the claim C1 counterexample: an INSERT for
`public.tbl` typed `bigint`. -/
def schemaChangeMsg1 : ReplicationMessage :=
  { row := { op := .INSERT, table := "public.tbl", commit_time := 0,
             new_tuple := [{ column_name := "a", column_type := 20,
                             atttypmod := -1, part_of_pkey := false,
                             datum := .int64 1 }],
             old_tuple := [],
             new_typeinfo := [{ modifier := "bigint",
                                value_optional := true }] }
    data_start := 10 }

/-- Second message of the claim C1 counterexample: the same column now typed
`character varying` — an incompatible schema change. -/
def schemaChangeMsg2 : RowMessage :=
  { op := .INSERT, table := "public.tbl", commit_time := 0,
    new_tuple := [{ column_name := "a", column_type := 1043,
                    atttypmod := 12, part_of_pkey := false,
                    datum := .stringD "x" }],
    old_tuple := [],
    new_typeinfo := [{ modifier := "character varying",
                       value_optional := true }] }

/-- The consumer of the claim C1 counterexample: a large `upto_lsn` and
batch size, so neither stop condition of `process_commit` is in play. -/
def schemaChangeInit : ConsumerState :=
  consumerInit 1152921504606846976 ["public.tbl"] 1000 []

/-- Counterexample to claim C1 as stated: `StopReplication` is *not* raised
only immediately after a COMMIT — after one INSERT establishes the schema
cache for `public.tbl`, a second INSERT whose typeinfo fingerprint differs
and whose inferred schema is incompatible raises `StopReplication`
immediately, with no COMMIT ever processed. -/
theorem consumer_stop_after_insert :
    (runConsumer schemaChangeInit [schemaChangeMsg1]).2 = none ∧
    (process_msg (runConsumer schemaChangeInit [schemaChangeMsg1]).1
        schemaChangeMsg2 11).2 = some .stopReplication ∧
    schemaChangeMsg2.op = .INSERT ∧ schemaChangeMsg2.op ≠ .COMMIT := by
  refine ⟨by decide, by decide, rfl, by decide⟩

/-- The concrete COMMIT message of the claim C1 witness. -/
def commitStopMsg : ReplicationMessage :=
  { row := { op := .COMMIT, table := "", commit_time := 0, new_tuple := [],
             old_tuple := [], new_typeinfo := [] }
    data_start := 5 }

/-- Witness for `consumer_stop_only_after_commit_or_change`: with
`upto_lsn = 0` the very first COMMIT raises, and the theorem places that
raise in its COMMIT disjunct. -/
theorem consumer_stop_only_after_commit_or_change_witness :
    ((runConsumer (consumerInit 0 [] 1000 []) []).2 = none) ∧
    ((process_msg (runConsumer (consumerInit 0 [] 1000 []) []).1
        commitStopMsg.row commitStopMsg.data_start).2 =
      some .stopReplication) ∧
    ((commitStopMsg.row.op = .COMMIT ∧
      (let s2 := (process_msg (runConsumer (consumerInit 0 [] 1000 []) []).1
          commitStopMsg.row commitStopMsg.data_start).1
       s2.target_batch_size ≤ totalBufferedRows s2 ∨
         (s2.last_commit_lsn = some commitStopMsg.data_start ∧
           s2.upto_lsn ≤ commitStopMsg.data_start))) ∨
      ((commitStopMsg.row.op = .INSERT ∨ commitStopMsg.row.op = .UPDATE ∨
        commitStopMsg.row.op = .DELETE) ∧
        (let s1 := (runConsumer (consumerInit 0 [] 1000 []) []).1
         commitStopMsg.row.table ∈ s1.table_qnames ∧
         ∃ tn last new_schema emsg,
           (pySplit commitStopMsg.row.table (Char.ofNat 46)).get? 1 =
             some tn ∧
           dictGet s1.last_table_schema tn = some last ∧
           infer_table_schema commitStopMsg.row
             (dictGet s1.included_columns tn) = .ok new_schema ∧
           compare_schemas last new_schema =
             .error (.assertionError emsg)))) :=
  ⟨rfl, by decide,
    consumer_stop_only_after_commit_or_change 0 1000 [] [] [] commitStopMsg
      rfl (by decide)⟩

/-! ## Claim C2: a batch with no COMMIT -/

/-- Processing any non-COMMIT message never assigns `last_commit_lsn`. -/
theorem process_msg_no_commit_lcl (s : ConsumerState) (rm : RowMessage)
    (d : Nat) (hop : rm.op ≠ .COMMIT) :
    ((process_msg s rm d).1).last_commit_lsn = s.last_commit_lsn := by
  unfold process_msg
  by_cases h1 : rm.op = .UNKNOWN
  · rw [if_pos h1]
  · rw [if_neg h1]
    by_cases h2 : rm.op = .BEGIN
    · rw [if_pos h2]
    · rw [if_neg h2, if_neg hop]
      exact process_change_last_commit_lsn s rm d

/-- A run that observes no COMMIT leaves `last_commit_lsn` as it was, even
when it stops early on an exception. -/
theorem runConsumer_no_commit_lcl (msgs : List ReplicationMessage)
    (hnc : ∀ m ∈ msgs, m.row.op ≠ .COMMIT) :
    ∀ s : ConsumerState,
      ((runConsumer s msgs).1).last_commit_lsn = s.last_commit_lsn := by
  induction msgs with
  | nil => intro s; rfl
  | cons m rest ih =>
    intro s
    have hrc : runConsumer s (m :: rest) =
        (match process_msg s m.row m.data_start with
         | (s1, none) => runConsumer s1 rest
         | (s1, some e) => (s1, some e)) := rfl
    have hstep := process_msg_no_commit_lcl s m.row m.data_start
      (hnc m (List.mem_cons_self _ _))
    cases hpm : process_msg s m.row m.data_start with
    | mk s1 e =>
      rw [hpm] at hstep
      cases e with
      | none =>
        have heq : runConsumer s (m :: rest) = runConsumer s1 rest := by
          rw [hrc, hpm]
        rw [heq, ih (fun x hx => hnc x (List.mem_cons_of_mem _ hx)) s1]
        exact hstep
      | some e0 =>
        have heq : runConsumer s (m :: rest) = (s1, some e0) := by
          rw [hrc, hpm]
        rw [heq]
        exact hstep

/-- Claim C2 (amended): when the consumer observes no COMMIT in the whole
stream, the Item Generator emits no items and sends no acknowledgement —
but it does *not* close the connection cleanly: the `finally` block first
statement reads the consumer unset `last_commit_lsn` attribute and raises
`AttributeError` before the acknowledgement, the yields and the
`connection.close()` call. -/
theorem generator_no_commit_no_ack (upto batch : Nat)
    (qnames : List String) (tos : List (String × SqlTableOptions))
    (msgs : List ReplicationMessage)
    (hnc : ∀ m ∈ msgs, m.row.op ≠ .COMMIT) :
    itemGeneratorIter upto qnames batch tos msgs =
      { yielded := [], writeAck := none, flushAck := none, closed := false,
        lastCommitLsn := none, generatedAll := false,
        err := some .attributeError } := by
  have hlcl : ((runConsumer (consumerInit upto qnames batch tos) msgs).1).last_commit_lsn
      = none :=
    runConsumer_no_commit_lcl msgs hnc _
  simp [itemGeneratorIter, hlcl]

/-- Counterexample to claim C2 as stated: on an empty stream with
`upto_lsn = 0` the Item Generator does emit nothing and ack nothing, but it
does *not* close the connection cleanly — it dies with `AttributeError` and
`connection.close()` is never reached. -/
theorem generator_empty_stream_attribute_error :
    (itemGeneratorIter 0 [] 1000 [] []).yielded = [] ∧
    (itemGeneratorIter 0 [] 1000 [] []).writeAck = none ∧
    (itemGeneratorIter 0 [] 1000 [] []).flushAck = none ∧
    (itemGeneratorIter 0 [] 1000 [] []).closed = false ∧
    (itemGeneratorIter 0 [] 1000 [] []).err = some .attributeError := by
  refine ⟨rfl, rfl, rfl, rfl, rfl⟩

/-- Witness for `generator_no_commit_no_ack`: a stream holding one BEGIN
and one INSERT for an unlisted table, but no COMMIT. -/
theorem generator_no_commit_no_ack_witness :
    (∀ m ∈ [({ row := { op := .BEGIN, table := "", commit_time := 9,
                        new_tuple := [], old_tuple := [],
                        new_typeinfo := [] }, data_start := 1 } :
              ReplicationMessage),
            { row := { op := .INSERT, table := "other.t", commit_time := 9,
                       new_tuple := [], old_tuple := [],
                       new_typeinfo := [] }, data_start := 2 }],
      m.row.op ≠ .COMMIT) ∧
    itemGeneratorIter 3 ["public.t"] 10 []
      [{ row := { op := .BEGIN, table := "", commit_time := 9,
                  new_tuple := [], old_tuple := [], new_typeinfo := [] },
         data_start := 1 },
       { row := { op := .INSERT, table := "other.t", commit_time := 9,
                  new_tuple := [], old_tuple := [], new_typeinfo := [] },
         data_start := 2 }] =
      { yielded := [], writeAck := none, flushAck := none, closed := false,
        lastCommitLsn := none, generatedAll := false,
        err := some .attributeError } :=
  ⟨by decide,
    generator_no_commit_no_ack 3 10 ["public.t"] [] _ (by decide)⟩

/-! ## Claim C3: `deleted_ts` and `lsn` on emitted items -/

theorem genDataItemGo_preserves_value (is_delete : Bool)
    (cs : List (String × ColumnSchema)) (inc : Option (List String)) :
    ∀ (l : List DatumMessage) (acc item : DataItem) (k : String),
      (∀ d ∈ l, d.column_name ≠ k) →
      genDataItemGo is_delete cs inc l acc = .ok item →
      dictGet item k = dictGet acc k := by
  intro l
  induction l with
  | nil =>
    intro acc item k _ h
    simp only [genDataItemGo, Except.ok.injEq] at h
    rw [← h]
  | cons d rest ih =>
    intro acc item k hne h
    simp only [genDataItemGo] at h
    by_cases hkeep : keepColumn inc d.column_name
    · rw [if_pos hkeep] at h
      cases hdt : (dictGet cs d.column_name).bind (fun c => c.data_type) with
      | none => rw [hdt] at h; cases h
      | some dt =>
        rw [hdt] at h
        rw [ih _ _ k (fun x hx => hne x (List.mem_cons_of_mem _ hx)) h]
        exact dictGet_dictSet_ne acc d.column_name k _
          (hne d (List.mem_cons_self _ _))
    · rw [if_neg hkeep] at h
      exact ih _ _ k (fun x hx => hne x (List.mem_cons_of_mem _ hx)) h

/-- For a DELETE whose key tuple has no column literally named
`deleted_ts`, the generated item `deleted_ts` is the datetime decoded from
the `commit_time` field *of the message itself*. -/
theorem gen_data_item_delete_ts (msg : RowMessage)
    (cs : List (String × ColumnSchema)) (inc : Option (List String))
    (item : DataItem) (hdel : msg.op = .DELETE)
    (hnod : ∀ d ∈ msg.old_tuple, d.column_name ≠ "deleted_ts")
    (h : gen_data_item msg cs inc = .ok item) :
    dictGet item "deleted_ts" = some (epochMicrosToDatetime msg.commit_time) := by
  simp [gen_data_item, hdel] at h
  rw [genDataItemGo_preserves_value _ _ _ _ _ _ _ hnod h]
  rfl

/-- The successful shape of `process_change` for an allowed table: the
schema is resolved, the item generated, its `lsn` set, and the item appended
to the table buffer. -/
theorem process_change_ok_shape (s : ConsumerState) (msg : RowMessage)
    (lsn : Nat) (hmem : msg.table ∈ s.table_qnames)
    (hok : (process_change s msg lsn).2 = none) :
    ∃ tn s1 ts item0,
      (pySplit msg.table (Char.ofNat 46)).get? 1 = some tn ∧
      get_table_schema s msg tn = (s1, .ok ts) ∧
      gen_data_item msg ts.columns (dictGet s1.included_columns tn) =
        .ok item0 ∧
      (process_change s msg lsn).1 = { s1 with
        data_items := appendDataItem s1.data_items tn
          (dictSet item0 "lsn" (.int (Int.ofNat lsn))) } := by
  unfold process_change at hok ⊢
  rw [if_pos hmem] at hok ⊢
  split at hok
  · simp at hok
  · rename_i tn hsp
    rw [hsp]
    split at hok
    · simp at hok
    · rename_i s1 ts hg
      split at hok
      · simp at hok
      · rename_i item0 hgen
        exact ⟨tn, s1, ts, item0, rfl, hg, hgen, rfl⟩

/-- Claim C3 (amended): every row item `process_change` appends carries
`lsn = data_start` of its message; for DELETE messages whose key tuple has
no column named `deleted_ts`, the item `deleted_ts` is the datetime
decoded from the `commit_time` field of the DELETE message itself (which under
the decoderbufs protocol equals the transaction commit time the BEGIN also
carries — but the consumer does not read its BEGIN-recorded
`last_commit_ts` here). -/
theorem change_item_lsn_and_deleted_ts (s : ConsumerState)
    (msg : RowMessage) (lsn : Nat) (hmem : msg.table ∈ s.table_qnames)
    (hok : (process_change s msg lsn).2 = none) :
    ∃ tn item, (pySplit msg.table (Char.ofNat 46)).get? 1 = some tn ∧
      lastItemOf (process_change s msg lsn).1 tn = some item ∧
      dictGet item "lsn" = some (.int (Int.ofNat lsn)) ∧
      (msg.op = .DELETE →
        (∀ d ∈ msg.old_tuple, d.column_name ≠ "deleted_ts") →
        dictGet item "deleted_ts" =
          some (epochMicrosToDatetime msg.commit_time)) := by
  obtain ⟨tn, s1, ts, item0, hsp, hg, hgen, hstate⟩ :=
    process_change_ok_shape s msg lsn hmem hok
  refine ⟨tn, dictSet item0 "lsn" (.int (Int.ofNat lsn)), hsp, ?_, ?_, ?_⟩
  · rw [hstate]
    unfold lastItemOf
    simp only
    rw [dictGet_appendDataItem]
    simp
  · exact dictGet_dictSet_self _ _ _
  · intro hdel hnod
    rw [dictGet_dictSet_ne _ _ _ _ (by decide : "lsn" ≠ "deleted_ts")]
    exact gen_data_item_delete_ts msg ts.columns _ item0 hdel hnod hgen

/-- The consumer of the claim C3 counterexample. -/
def deleteTsInit : ConsumerState :=
  consumerInit 1152921504606846976 ["public.tbl"] 1000 []

/-- BEGIN carrying commit time 1 (the BEGIN-recorded commit time). -/
def deleteTsBegin : ReplicationMessage :=
  { row := { op := .BEGIN, table := "", commit_time := 1, new_tuple := [],
             old_tuple := [], new_typeinfo := [] }, data_start := 3 }

/-- A DELETE whose own `commit_time` field holds 2, not the 1 recorded at
BEGIN. -/
def deleteTsDelete : ReplicationMessage :=
  { row := { op := .DELETE, table := "public.tbl", commit_time := 2,
             new_tuple := [],
             old_tuple := [{ column_name := "id", column_type := 20,
                             atttypmod := -1, part_of_pkey := true,
                             datum := .null }],
             new_typeinfo := [] }, data_start := 5 }

/-- Counterexample to claim C3 as stated: after BEGIN records commit time 1,
a DELETE carrying `commit_time = 2` in its own message is buffered with
`deleted_ts` decoded from 2 — *not* from the BEGIN-recorded time 1 (and the
null key column is replaced by the bigint dummy 0, `lsn` by `data_start`). -/
theorem delete_ts_not_from_begin :
    (runConsumer deleteTsInit [deleteTsBegin, deleteTsDelete]).2 = none ∧
    (runConsumer deleteTsInit [deleteTsBegin, deleteTsDelete]).1.last_commit_ts
      = some (Val.datetime 1) ∧
    lastItemOf (runConsumer deleteTsInit [deleteTsBegin, deleteTsDelete]).1
        "tbl" =
      some [("deleted_ts", Val.datetime 2), ("id", Val.int 0),
            ("lsn", Val.int 5)] ∧
    (Val.datetime 2 : Val) ≠ Val.datetime 1 := by
  refine ⟨by decide, by decide, by decide, by decide⟩

/-- Witness for `change_item_lsn_and_deleted_ts` on a concrete DELETE. -/
theorem change_item_lsn_and_deleted_ts_witness :
    (deleteTsDelete.row.table ∈ deleteTsInit.table_qnames) ∧
    ((process_change deleteTsInit deleteTsDelete.row 5).2 = none) ∧
    (∃ tn item,
      (pySplit deleteTsDelete.row.table (Char.ofNat 46)).get? 1 = some tn ∧
      lastItemOf (process_change deleteTsInit deleteTsDelete.row 5).1 tn =
        some item ∧
      dictGet item "lsn" = some (.int (Int.ofNat 5)) ∧
      (deleteTsDelete.row.op = .DELETE →
        (∀ d ∈ deleteTsDelete.row.old_tuple, d.column_name ≠ "deleted_ts") →
        dictGet item "deleted_ts" =
          some (epochMicrosToDatetime deleteTsDelete.row.commit_time))) :=
  ⟨by decide, by decide,
    change_item_lsn_and_deleted_ts deleteTsInit deleteTsDelete.row 5
      (by decide) (by decide)⟩

/-! ## Claim C6: inferred table name and replication columns -/

theorem dictKeys_dictSet_mem {α : Type} (d : List (String × α))
    (key : String) (v : α) :
    ∀ k, k ∈ dictKeys (dictSet d key v) → k ∈ dictKeys d ∨ k = key := by
  induction d with
  | nil =>
    intro k hk
    simp [dictSet, dictKeys] at hk
    exact Or.inr hk
  | cons p rest ih =>
    obtain ⟨a, b⟩ := p
    intro k hk
    by_cases hp : a = key
    · rw [dictSet, if_pos hp] at hk
      simp only [dictKeys, List.map_cons, List.mem_cons] at hk ⊢
      tauto
    · rw [dictSet, if_neg hp] at hk
      simp only [dictKeys, List.map_cons, List.mem_cons] at hk ⊢
      rcases hk with hk | hk
      · exact Or.inl (Or.inl hk)
      · rcases ih k hk with h1 | h1
        · exact Or.inl (Or.inr h1)
        · exact Or.inr h1

/-- Every key of the inferred column dictionary is a key of the accumulator
or the name of a source-tuple column. -/
theorem inferColumnsGo_keys (is_change : Bool) (tinfos : List TypeInfo)
    (inc : Option (List String)) :
    ∀ (l : List DatumMessage) (i : Nat)
      (acc r : List (String × ColumnSchema)),
      inferColumnsGo is_change tinfos inc l i acc = .ok r →
      ∀ k, k ∈ dictKeys r → k ∈ dictKeys acc ∨ ∃ d ∈ l, d.column_name = k := by
  intro l
  induction l with
  | nil =>
    intro i acc r h k hk
    simp only [inferColumnsGo, Except.ok.injEq] at h
    exact Or.inl (h ▸ hk)
  | cons c rest ih =>
    intro i acc r h k hk
    simp only [inferColumnsGo] at h
    split at h
    · split at h
      · split at h
        · cases h
        · rcases ih _ _ _ h k hk with hacc | ⟨d, hd, hdk⟩
          · rcases dictKeys_dictSet_mem _ _ _ k hacc with h1 | h1
            · exact Or.inl h1
            · exact Or.inr ⟨c, List.mem_cons_self _ _, h1.symm⟩
          · exact Or.inr ⟨d, List.mem_cons_of_mem _ hd, hdk⟩
      · rcases ih _ _ _ h k hk with hacc | ⟨d, hd, hdk⟩
        · rcases dictKeys_dictSet_mem _ _ _ k hacc with h1 | h1
          · exact Or.inl h1
          · exact Or.inr ⟨c, List.mem_cons_self _ _, h1.symm⟩
        · exact Or.inr ⟨d, List.mem_cons_of_mem _ hd, hdk⟩
    · rcases ih _ _ _ h k hk with hacc | ⟨d, hd, hdk⟩
      · exact Or.inl hacc
      · exact Or.inr ⟨d, List.mem_cons_of_mem _ hd, hdk⟩

/-- Claim C6 (amended): `infer_table_schema` names the schema after the
second dotted component of `msg.table` *with any quotes retained* (not
unquoted), and its column mapping always contains the replication columns
`lsn` (bigint, nullable) and `deleted_ts` (timestamp, nullable); when no
source column is itself named `lsn` or `deleted_ts`, they are exactly the
last two entries, in that order (a source column with one of those names
would keep its original position while receiving the replication column
schema). -/
theorem infer_schema_name_and_repl_columns (msg : RowMessage)
    (inc : Option (List String)) (sch : TableSchema)
    (hok : infer_table_schema msg inc = .ok sch) :
    (pySplit msg.table (Char.ofNat 46)).get? 1 = some sch.name ∧
    dictGet sch.columns "lsn" = some lsnReplColumn ∧
    dictGet sch.columns "deleted_ts" = some deletedTsReplColumn ∧
    ((∀ d ∈ (if msg.op = .DELETE then msg.old_tuple else msg.new_tuple),
        d.column_name ≠ "lsn" ∧ d.column_name ≠ "deleted_ts") →
      ∃ pre, sch.columns = pre ++ [("lsn", lsnReplColumn),
        ("deleted_ts", deletedTsReplColumn)]) := by
  simp only [infer_table_schema] at hok
  split at hok
  · cases hok
  · rename_i cols0 hcols
    split at hok
    · cases hok
    · rename_i tn hsp
      injection hok with hok
      subst hok
      refine ⟨hsp, ?_, ?_, ?_⟩
      · rw [dictGet_dictSet_ne _ _ _ _ (by decide : "deleted_ts" ≠ "lsn")]
        exact dictGet_dictSet_self _ _ _
      · exact dictGet_dictSet_self _ _ _
      · intro hno
        have htup : ∀ d ∈ (if msg.op ≠ Op.DELETE
            then msg.new_tuple else msg.old_tuple),
            d.column_name ≠ "lsn" ∧ d.column_name ≠ "deleted_ts" := by
          by_cases hdel : msg.op = .DELETE <;> simp [hdel] at hno ⊢ <;>
            exact hno
        have hnokey : ∀ k, k ∈ dictKeys cols0 →
            k ≠ "lsn" ∧ k ≠ "deleted_ts" := by
          intro k hk
          rcases inferColumnsGo_keys _ _ _ _ _ _ _ hcols k hk with h1 | ⟨d, hd, hdk⟩
          · simp [dictKeys] at h1
          · exact hdk ▸ htup d hd
        have hlsn_nin : "lsn" ∉ dictKeys cols0 := by
          intro hmem
          exact (hnokey _ hmem).1 rfl
        have hdts_nin : "deleted_ts" ∉ dictKeys cols0 := by
          intro hmem
          exact (hnokey _ hmem).2 rfl
        refine ⟨cols0, ?_⟩
        rw [dictSet_append cols0 "lsn" lsnReplColumn hlsn_nin]
        rw [dictSet_append _ "deleted_ts" deletedTsReplColumn (by
          rw [dictKeys]
          simp only [List.map_append]
          rw [← dictKeys]
          intro hmem
          rcases List.mem_append.mp hmem with h1 | h1
          · exact hdts_nin h1
          · simp at h1)]
        simp

/-- The claim C6 counterexample message: the table field carries the quoted
form `public."t"`. -/
def quotedTableMsg : RowMessage :=
  { op := .INSERT, table := "public.\"t\"", commit_time := 0,
    new_tuple := [{ column_name := "a", column_type := 20, atttypmod := -1,
                    part_of_pkey := false, datum := .int64 1 }],
    old_tuple := [],
    new_typeinfo := [{ modifier := "bigint", value_optional := true }] }

/-- Counterexample to claim C6 as stated: for `table = public."t"` the
schema name is the second dotted component *with its quotes*, `"t"` (three
characters), not the unquoted `t`. -/
theorem infer_schema_keeps_quotes :
    (infer_table_schema quotedTableMsg none).map TableSchema.name =
      .ok "\"t\"" ∧ ("\"t\"" : String) ≠ "t" := by
  refine ⟨rfl, by decide⟩

/-- The schema `infer_table_schema` produces for `quotedTableMsg`. -/
def quotedTableSchema : TableSchema :=
  { name := "\"t\""
    columns := [("a", { name := some "a", data_type := some .bigint,
                        nullable := some true, precision := some 64,
                        primary_key := some false }),
                ("lsn", lsnReplColumn),
                ("deleted_ts", deletedTsReplColumn)] }

/-- Witness for `infer_schema_name_and_repl_columns` on a concrete
message. -/
theorem infer_schema_name_and_repl_columns_witness :
    (infer_table_schema quotedTableMsg none = .ok quotedTableSchema) ∧
    ((pySplit quotedTableMsg.table (Char.ofNat 46)).get? 1 =
        some quotedTableSchema.name ∧
      dictGet quotedTableSchema.columns "lsn" = some lsnReplColumn ∧
      dictGet quotedTableSchema.columns "deleted_ts" =
        some deletedTsReplColumn ∧
      ((∀ d ∈ (if quotedTableMsg.op = .DELETE then quotedTableMsg.old_tuple
          else quotedTableMsg.new_tuple),
          d.column_name ≠ "lsn" ∧ d.column_name ≠ "deleted_ts") →
        ∃ pre, quotedTableSchema.columns = pre ++
          [("lsn", lsnReplColumn), ("deleted_ts", deletedTsReplColumn)])) :=
  ⟨rfl,
    infer_schema_name_and_repl_columns quotedTableMsg none quotedTableSchema
      rfl⟩

/-! ## Claim C9: table filter is a pure frame condition -/

/-- Claim C9 (confirmed): a change message for a table outside
`table_qnames` leaves the consumer state completely unchanged and raises
nothing: no row, schema or fingerprint is recorded for tables outside the
allow-set. -/
theorem process_change_ignores_unlisted_tables (s : ConsumerState)
    (msg : RowMessage) (lsn : Nat) (h : msg.table ∉ s.table_qnames) :
    process_change s msg lsn = (s, none) := by
  simp [process_change, h]

/-- Witness for `process_change_ignores_unlisted_tables`: a message for
`other.tbl` when only `public.tbl` is allowed. -/
theorem process_change_ignores_unlisted_tables_witness :
    ("other.tbl" : String) ∉ (consumerInit 0 ["public.tbl"] 1000 []).table_qnames ∧
    process_change (consumerInit 0 ["public.tbl"] 1000 [])
      { op := .INSERT, table := "other.tbl", commit_time := 0,
        new_tuple := [], old_tuple := [], new_typeinfo := [] } 7 =
      (consumerInit 0 ["public.tbl"] 1000 [], none) :=
  ⟨by decide,
    process_change_ignores_unlisted_tables _ _ 7 (by decide)⟩

end PgRepl
